import Mathlib

/-!
# webapp-operator: the `WebappCR` reconciler

A shallow embedding of `internal/controller/webappcr_controller.go`
(`WebappCRReconciler.Reconcile`) and the statements of its specification.

* Kubernetes objects are plain structures carrying the fields the controller
  reads or writes, under their Go names.
* The object-store client (`client.Client`) is an interface in the source; it is
  a structure of state-passing operations here, so `Reconcile` is defined for
  every client.  `traced` wraps a client so that every call is logged.
* `apiServer` is one client: an in-memory store with the API server's rules for
  the `status` subresource, and a schedule of injected call failures.
-/

namespace WebappOperator

set_option autoImplicit false

/-! ## Data model -/

/-- A `metav1.Time` as it is serialised: whole seconds since the epoch. -/
abbrev Time := Nat

/-- A Go `map[string]string`; the nil map is the empty list. -/
abbrev Labels := List (String × String)

/-- Lookup `m[k]` with presence flag. -/
def Labels.get? (m : Labels) (k : String) : Option String :=
  (m.find? (fun kv => kv.1 == k)).map (fun kv => kv.2)

/-- Assignment `m[k] = v`: overwrite the entry for `k`, or add one. -/
def Labels.set : Labels → String → String → Labels
  | [], k, v => [(k, v)]
  | (k0, v0) :: rest, k, v =>
    if k0 = k then (k, v) :: rest else (k0, v0) :: Labels.set rest k v

/-- The errors a call can return; `NotFound` is what `apierrors.IsNotFound`
recognises. -/
inductive Err where
  | NotFound
  | AlreadyExists
  | Conflict
  | Other (msg : String)
  deriving DecidableEq, Repr

/-- Mirrors `types.NamespacedName`. -/
structure NamespacedName where
  Namespace : String
  Name : String
  deriving DecidableEq, Repr

/-- Mirrors `ctrl.Request`. -/
structure Request where
  NamespacedName : NamespacedName
  deriving DecidableEq, Repr

/-- Mirrors `ctrl.Result`. -/
structure Result where
  Requeue : Bool := false
  RequeueAfter : Nat := 0
  deriving DecidableEq, Repr

/-- Mirrors `metav1.OwnerReference`. -/
structure OwnerReference where
  APIVersion : String
  Kind : String
  Name : String
  UID : String
  Controller : Option Bool
  BlockOwnerDeletion : Option Bool
  deriving DecidableEq, Repr

/-- Mirrors `metav1.ObjectMeta`, the fields the controller touches. -/
structure ObjectMeta where
  Name : String := ""
  Namespace : String := ""
  UID : String := ""
  Labels : Labels := []
  OwnerReferences : List OwnerReference := []
  deriving DecidableEq, Repr

/-- Mirrors `corev1.Container`. -/
structure Container where
  Name : String
  Image : String
  Command : List String
  deriving DecidableEq, Repr

/-- Mirrors `corev1.PodSpec`. -/
structure PodSpec where
  Containers : List Container := []
  RestartPolicy : String := ""
  deriving DecidableEq, Repr

/-- Mirrors `corev1.PodTemplateSpec`. -/
structure PodTemplateSpec where
  ObjectMeta : ObjectMeta := {}
  Spec : PodSpec := {}
  deriving DecidableEq, Repr

/-- Mirrors `batchv1.JobSpec`; `BackoffLimit` is an `*int32`. -/
structure JobSpec where
  BackoffLimit : Option Int := none
  Template : PodTemplateSpec := {}
  deriving DecidableEq, Repr

/-- Mirrors `batchv1.JobTemplateSpec`. -/
structure JobTemplateSpec where
  Spec : JobSpec := {}
  deriving DecidableEq, Repr

/-- Mirrors `batchv1.CronJobSpec`. -/
structure CronJobSpec where
  Schedule : String := ""
  JobTemplate : JobTemplateSpec := {}
  deriving DecidableEq, Repr

/-- Mirrors `batchv1.CronJobStatus`; `LastScheduleTime` is a `*metav1.Time`. -/
structure CronJobStatus where
  LastScheduleTime : Option Time := none
  deriving DecidableEq, Repr

/-- Mirrors `batchv1.CronJob`. -/
structure CronJob where
  ObjectMeta : ObjectMeta := {}
  Spec : CronJobSpec := {}
  Status : CronJobStatus := {}
  deriving DecidableEq, Repr

/-- Mirrors `batchv1.JobCondition`: a condition type (Go field `Type`) and a condition
status. -/
structure JobCondition where
  Type_ : String
  Status : String
  deriving DecidableEq, Repr

/-- Mirrors `batchv1.JobStatus`. -/
structure JobStatus where
  Conditions : List JobCondition := []
  deriving DecidableEq, Repr

/-- Mirrors `batchv1.Job`. -/
structure Job where
  ObjectMeta : ObjectMeta := {}
  Status : JobStatus := {}
  deriving DecidableEq, Repr

/-- Modelled from the spec: the `spec` stanza of `crwebappv1.WebappCR`, whose Go
declaration (package `webappcr.io/api/v1`) is not among the sources; the
persisted schema is `spec.uri: string`, `spec.backoffLimit: int32`. -/
structure WebappCRSpec where
  URI : String := ""
  BackoffLimit : Int := 0
  deriving DecidableEq, Repr

/-- Modelled from the spec: the `status` stanza of `crwebappv1.WebappCR`:
`status.lastExecutionTime: timestamp?` (the zero `metav1.Time` is `none`) and
`status.executionStatus`, absent (empty) by default. -/
structure WebappCRStatus where
  LastExecutionTime : Option Time := none
  ExecutionStatus : String := ""
  deriving DecidableEq, Repr

/-- Modelled from the spec: `crwebappv1.WebappCR`, an object with metadata, a
`spec` and a controller-owned `status`. -/
structure WebappCR where
  ObjectMeta : ObjectMeta := {}
  Spec : WebappCRSpec := {}
  Status : WebappCRStatus := {}
  deriving DecidableEq, Repr

/-- Mirrors `batchv1.JobComplete`. -/
def JobComplete : String := "Complete"

/-- Mirrors `batchv1.JobFailed`. -/
def JobFailed : String := "Failed"

/-- Mirrors `corev1.ConditionTrue`. -/
def ConditionTrue : String := "True"

/-- Mirrors `corev1.RestartPolicyOnFailure`. -/
def RestartPolicyOnFailure : String := "OnFailure"

/-! ## Aggregation (lines 176-202) -/

/-- The loop of the closure `isJobFinished` (lines 177-184): the first condition
of type `Complete` or `Failed` with status `True` ends it. -/
def isJobFinished.loop : List JobCondition → Bool × String
  | [] => (false, "")
  | c :: cs =>
    if (c.Type_ = JobComplete ∨ c.Type_ = JobFailed) ∧ c.Status = ConditionTrue then
      (true, c.Type_)
    else
      isJobFinished.loop cs

/-- The closure `isJobFinished` (lines 176-185). -/
def isJobFinished (job : Job) : Bool × String :=
  isJobFinished.loop job.Status.Conditions

/-- The loop of lines 187-193: the jobs that are not finished, in order. -/
def activeJobs : List Job → List Job
  | [] => []
  | job :: rest =>
    if !(isJobFinished job).1 then job :: activeJobs rest else activeJobs rest

/-- The value assigned to `webappCR.Status.ExecutionStatus` at lines 195-202. -/
def executionStatus (items : List Job) : String :=
  if (activeJobs items).length > 0 then "Active" else "Inactive"

/-! ## The collaborators of the reconciler -/

/-- Mirrors `schema.GroupVersionKind`; `APIVersion` is `gvk.GroupVersion().String()`. -/
structure GroupVersionKind where
  APIVersion : String
  Kind : String
  deriving DecidableEq, Repr

/-- Mirrors `runtime.Scheme`, as far as `Reconcile` consults it: the kinds
registered for the Go type `WebappCR`. -/
structure Scheme where
  webappCRKinds : List GroupVersionKind
  deriving DecidableEq, Repr

/-- Mirrors `apierrors.IsNotFound`. -/
def IsNotFound : Err → Bool
  | .NotFound => true
  | _ => false

/-- Mirrors `client.IgnoreNotFound`: `nil` for a not-found error, the error
otherwise. -/
def IgnoreNotFound (err : Err) : Option Err :=
  if IsNotFound err then none else some err

/-- Mirrors `client.ObjectKeyFromObject`. -/
def ObjectKeyFromObject (obj : CronJob) : NamespacedName :=
  { Namespace := obj.ObjectMeta.Namespace, Name := obj.ObjectMeta.Name }

/-- Mirrors `apiutil.GVKForObject` at a `WebappCR`: exactly one registered kind. -/
def GVKForObject (scheme : Scheme) : Except Err GroupVersionKind :=
  match scheme.webappCRKinds with
  | [gvk] => .ok gvk
  | [] => .error (.Other "no kind is registered for the type WebappCR")
  | _ => .error (.Other "multiple group-version-kinds associated with type WebappCR")

/-- Mirrors `validateOwner` of controller-runtime (`controllerutil`): a namespaced
owner needs the object in its own namespace. -/
def validateOwner (owner : WebappCR) (object : CronJob) : Option Err :=
  if owner.ObjectMeta.Namespace ≠ "" then
    if object.ObjectMeta.Namespace = "" then
      some (.Other "cluster-scoped resource must not have a namespace-scoped owner")
    else if owner.ObjectMeta.Namespace ≠ object.ObjectMeta.Namespace then
      some (.Other "cross-namespace owner references are disallowed")
    else none
  else none

/-- The group of `schema.ParseGroupVersion`: `none` when the string does not
parse. -/
def parseGroup (apiVersion : String) : Option String :=
  match apiVersion.splitOn "/" with
  | [_] => some ""
  | [g, _] => some g
  | _ => none

/-- Mirrors `referSameObject` of controller-runtime (`controllerutil`): same
group, kind and name. -/
def referSameObject (a b : OwnerReference) : Bool :=
  match parseGroup a.APIVersion, parseGroup b.APIVersion with
  | some aG, some bG => aG == bG && a.Kind == b.Kind && a.Name == b.Name
  | _, _ => false

/-- Mirrors `upsertOwnerRef` of controller-runtime (`controllerutil`). -/
def upsertOwnerRef (ref : OwnerReference) : List OwnerReference → List OwnerReference
  | [] => [ref]
  | r :: rs => if referSameObject r ref then ref :: rs else r :: upsertOwnerRef ref rs

/-- Mirrors `ctrl.SetControllerReference(owner, controlled, scheme)`, a function
of the controller-runtime library (v0.16.3, the version the source refers to), not
of the repository: validate the owner, look its kind up in the scheme, refuse an
object that another controller owns, and add the controller reference. -/
def SetControllerReference (owner : WebappCR) (controlled : CronJob) (scheme : Scheme) :
    Except Err CronJob :=
  match validateOwner owner controlled with
  | some err => .error err
  | none =>
    match GVKForObject scheme with
    | .error err => .error err
    | .ok gvk =>
      let ref : OwnerReference :=
        { APIVersion := gvk.APIVersion, Kind := gvk.Kind,
          Name := owner.ObjectMeta.Name, UID := owner.ObjectMeta.UID,
          BlockOwnerDeletion := some true, Controller := some true }
      let refs := controlled.ObjectMeta.OwnerReferences
      match refs.find? (fun r => r.Controller == some true) with
      | some existing =>
        if referSameObject existing ref then
          .ok { controlled with ObjectMeta.OwnerReferences := upsertOwnerRef ref refs }
        else .error (.Other "object is already owned by another controller")
      | none =>
        .ok { controlled with ObjectMeta.OwnerReferences := upsertOwnerRef ref refs }

/-- The calls of `client.Client` that `Reconcile` makes, each a transition of the
world `σ` the client talks to.  A successful write returns the object the server
answered with, which the Go client stores into the argument. -/
structure Client (σ : Type) where
  /-- Mirrors `Get(ctx, key, &WebappCR)`. -/
  GetWebappCR : NamespacedName → σ → Except Err WebappCR × σ
  /-- Mirrors `Get(ctx, key, &CronJob)`. -/
  GetCronJob : NamespacedName → σ → Except Err CronJob × σ
  /-- Mirrors `Create(ctx, cronJob)`. -/
  Create : CronJob → σ → Except Err CronJob × σ
  /-- Mirrors `Update(ctx, cronJob)`; `Reconcile` never calls it. -/
  Update : CronJob → σ → Except Err CronJob × σ
  /-- Mirrors `Status().Update(ctx, cronJob)`. -/
  StatusUpdateCronJob : CronJob → σ → Except Err CronJob × σ
  /-- Mirrors `Status().Update(ctx, webappCR)`. -/
  StatusUpdateWebappCR : WebappCR → σ → Except Err WebappCR × σ
  /-- Mirrors `List(ctx, &JobList, InNamespace(ns), MatchingLabels(labels))`. -/
  ListJobs : String → Labels → σ → Except Err (List Job) × σ

/-- Mirrors `WebappCRReconciler`. -/
structure WebappCRReconciler (σ : Type) where
  Client : Client σ
  Scheme : Scheme

/-! ## `Reconcile` (lines 61-210) -/

/-- Mirrors `ObjectMeta.SetLabels`. -/
def CronJob.SetLabels (cronJob : CronJob) (labels : Labels) : CronJob :=
  { cronJob with ObjectMeta.Labels := labels }

/-- Lines 67-109: the `CronJob` literal; `now` is the value of `time.Now()`. -/
def buildCronJob (webappCR : WebappCR) (now : Time) : CronJob :=
  let echoMsg := "echo " ++ webappCR.Spec.URI
  { ObjectMeta :=
      { Name := webappCR.ObjectMeta.Name,
        Namespace := webappCR.ObjectMeta.Namespace },
    Spec :=
      { Schedule := "*/1 * * * *",
        JobTemplate :=
          { Spec :=
              { BackoffLimit := some webappCR.Spec.BackoffLimit,
                Template :=
                  { ObjectMeta := { Labels := [("owner-cronjob", webappCR.ObjectMeta.Name)] },
                    Spec :=
                      { Containers :=
                          [{ Name := "ubuntu",
                             Image := "ubuntu",
                             Command := ["/bin/bash", "-c", "sleep 500000 && " ++ echoMsg] }],
                        RestartPolicy := RestartPolicyOnFailure } } } } },
    Status := { LastScheduleTime := some now } }

/-- Lines 111-115: the label map, with `owner-cronjob` set to the owner's name. -/
def ownerLabels (cronJob : CronJob) (webappCR : WebappCR) : Labels :=
  Labels.set cronJob.ObjectMeta.Labels "owner-cronjob" webappCR.ObjectMeta.Name

/-- Lines 67-116: the desired `CronJob` that `Reconcile` builds. -/
def desiredCronJob (webappCR : WebappCR) (now : Time) : CronJob :=
  let cronJob := buildCronJob webappCR now
  cronJob.SetLabels (ownerLabels cronJob webappCR)

/-- Lines 157-162: copy the last schedule time, when there is one. -/
def copyLastScheduleTime (webappCR : WebappCR) (cronJobStatus : CronJob) : WebappCR :=
  match cronJobStatus.Status.LastScheduleTime with
  | some t => { webappCR with Status.LastExecutionTime := some t }
  | none => webappCR

/-- The assignment of lines 195-202 on its own: `webappCR` with the execution
status of the branch taken. -/
def withExecutionStatus (webappCR : WebappCR) (active : List Job) : WebappCR :=
  { webappCR with
    Status.ExecutionStatus := if active.length > 0 then "Active" else "Inactive" }

/-- Lines 195-209: set the execution status, write the status (the result of
this first write is dropped), then write it again and return its error. -/
def Reconcile.persist {σ : Type} (r : WebappCRReconciler σ) (webappCR : WebappCR)
    (activeJobs : List Job) (w : σ) : (Result × Option Err) × σ :=
  let step : WebappCR × σ :=
    if activeJobs.length > 0 then
      let webappCR := { webappCR with Status.ExecutionStatus := "Active" }
      match r.Client.StatusUpdateWebappCR webappCR w with
      | (.ok updated, w) => (updated, w)
      | (.error _, w) => (webappCR, w)
    else
      let webappCR := { webappCR with Status.ExecutionStatus := "Inactive" }
      match r.Client.StatusUpdateWebappCR webappCR w with
      | (.ok updated, w) => (updated, w)
      | (.error _, w) => (webappCR, w)
  match r.Client.StatusUpdateWebappCR step.1 step.2 with
  | (.error err, w) => (({}, some err), w)
  | (.ok _, w) => (({}, none), w)

/-- Lines 150-209: re-read the `CronJob`, copy its timestamp, list the child
jobs, reduce them and persist the status. -/
def Reconcile.observe {σ : Type} (r : WebappCRReconciler σ) (req : Request)
    (webappCR : WebappCR) (labels : Labels) (cronJob : CronJob) (w : σ) :
    (Result × Option Err) × σ :=
  match r.Client.GetCronJob (ObjectKeyFromObject cronJob) w with
  | (.error err, w) => (({}, some err), w)
  | (.ok cronJobStatus, w) =>
    let webappCR := copyLastScheduleTime webappCR cronJobStatus
    match r.Client.ListJobs req.NamespacedName.Namespace labels w with
    | (.error err, w) => (({}, some err), w)
    | (.ok childJobs, w) =>
      Reconcile.persist r webappCR (activeJobs childJobs) w

/-- Mirrors `WebappCRReconciler.Reconcile` (lines 61-210); `now` is what `time.Now()`
returns during the pass, `w` the world before it.  The result is the pair
`(ctrl.Result, error)` and the world after the pass. -/
def Reconcile {σ : Type} (r : WebappCRReconciler σ) (now : Time) (req : Request) (w : σ) :
    (Result × Option Err) × σ :=
  match r.Client.GetWebappCR req.NamespacedName w with
  | (.error err, w) => (({}, IgnoreNotFound err), w)
  | (.ok webappCR, w) =>
    let cronJob := buildCronJob webappCR now
    let labels := ownerLabels cronJob webappCR
    let cronJob := cronJob.SetLabels labels
    match SetControllerReference webappCR cronJob r.Scheme with
    | .error err => (({}, some err), w)
    | .ok cronJob =>
      match r.Client.GetCronJob
          { Name := cronJob.ObjectMeta.Name, Namespace := cronJob.ObjectMeta.Namespace } w with
      | (.error _, w) =>
        match r.Client.Create cronJob w with
        | (.error err, w) => (({}, some err), w)
        | (.ok cronJob, w) => Reconcile.observe r req webappCR labels cronJob w
      | (.ok _, w) =>
        let cronJob :=
          { cronJob with Spec.JobTemplate.Spec.BackoffLimit := some webappCR.Spec.BackoffLimit }
        match r.Client.StatusUpdateCronJob cronJob w with
        | (.error err, w) => (({}, some err), w)
        | (.ok cronJob, w) => Reconcile.observe r req webappCR labels cronJob w

/-! ## Logging the calls of a client -/

/-- One call of the client, with its arguments and what it returned. -/
inductive Call where
  | GetWebappCR (key : NamespacedName) (res : Except Err WebappCR)
  | GetCronJob (key : NamespacedName) (res : Except Err CronJob)
  | Create (obj : CronJob) (res : Except Err CronJob)
  | Update (obj : CronJob) (res : Except Err CronJob)
  | StatusUpdateCronJob (obj : CronJob) (res : Except Err CronJob)
  | StatusUpdateWebappCR (obj : WebappCR) (res : Except Err WebappCR)
  | ListJobs (ns : String) (labels : Labels) (res : Except Err (List Job))

deriving instance DecidableEq for Except

deriving instance DecidableEq for Call

/-- A call that writes to the store. -/
def Call.isWrite : Call → Bool
  | .Create _ _ => true
  | .Update _ _ => true
  | .StatusUpdateCronJob _ _ => true
  | .StatusUpdateWebappCR _ _ => true
  | _ => false

/-- A `Create` call. -/
def Call.isCreate : Call → Bool
  | .Create _ _ => true
  | _ => false

/-- An `Update` call of the main resource. -/
def Call.isUpdate : Call → Bool
  | .Update _ _ => true
  | _ => false

/-- A status update of a `CronJob`. -/
def Call.isCronJobStatusUpdate : Call → Bool
  | .StatusUpdateCronJob _ _ => true
  | _ => false

/-- A status write of the custom resource. -/
def Call.isWebappCRStatusWrite : Call → Bool
  | .StatusUpdateWebappCR _ _ => true
  | _ => false

/-- A call that returned an error. -/
def Call.failed : Call → Bool
  | .GetWebappCR _ (.error _) => true
  | .GetCronJob _ (.error _) => true
  | .Create _ (.error _) => true
  | .Update _ (.error _) => true
  | .StatusUpdateCronJob _ (.error _) => true
  | .StatusUpdateWebappCR _ (.error _) => true
  | .ListJobs _ _ (.error _) => true
  | _ => false

/-- The client `c`, with every call appended to a log kept beside the world. -/
def traced {σ : Type} (c : Client σ) : Client (σ × List Call) where
  GetWebappCR key s :=
    let out := c.GetWebappCR key s.1
    (out.1, (out.2, s.2 ++ [.GetWebappCR key out.1]))
  GetCronJob key s :=
    let out := c.GetCronJob key s.1
    (out.1, (out.2, s.2 ++ [.GetCronJob key out.1]))
  Create obj s :=
    let out := c.Create obj s.1
    (out.1, (out.2, s.2 ++ [.Create obj out.1]))
  Update obj s :=
    let out := c.Update obj s.1
    (out.1, (out.2, s.2 ++ [.Update obj out.1]))
  StatusUpdateCronJob obj s :=
    let out := c.StatusUpdateCronJob obj s.1
    (out.1, (out.2, s.2 ++ [.StatusUpdateCronJob obj out.1]))
  StatusUpdateWebappCR obj s :=
    let out := c.StatusUpdateWebappCR obj s.1
    (out.1, (out.2, s.2 ++ [.StatusUpdateWebappCR obj out.1]))
  ListJobs ns labels s :=
    let out := c.ListJobs ns labels s.1
    (out.1, (out.2, s.2 ++ [.ListJobs ns labels out.1]))

/-- The reconciler `r` over the logging client. -/
def WebappCRReconciler.traced {σ : Type} (r : WebappCRReconciler σ) :
    WebappCRReconciler (σ × List Call) :=
  { Client := WebappOperator.traced r.Client, Scheme := r.Scheme }

/-- The calls one pass of `Reconcile` issues from the world `w`, in order. -/
def callsOf {σ : Type} (r : WebappCRReconciler σ) (now : Time) (req : Request) (w : σ) :
    List Call :=
  (Reconcile r.traced now req (w, [])).2.2

/-! ## An in-memory API server -/

/-- The objects of the store: custom resources and cron jobs by key, and the
jobs. -/
structure Cluster where
  webappCRs : NamespacedName → Option WebappCR
  cronJobs : NamespacedName → Option CronJob
  jobs : List Job

/-- The store together with its failure schedule: call number `calls` fails with
`faults calls` when that is an error, whatever the objects are. -/
structure World where
  cluster : Cluster
  faults : Nat → Option Err
  calls : Nat

/-- Count one call. -/
def World.tick (w : World) : World :=
  { w with calls := w.calls + 1 }

/-- Replace the objects. -/
def World.withCluster (w : World) (c : Cluster) : World :=
  { w with cluster := c }

/-- Store a cron job under its key. -/
def Cluster.putCronJob (c : Cluster) (obj : CronJob) : Cluster :=
  { c with cronJobs := fun k => if k = ObjectKeyFromObject obj then some obj else c.cronJobs k }

/-- Store a custom resource under its key. -/
def Cluster.putWebappCR (c : Cluster) (obj : WebappCR) : Cluster :=
  { c with webappCRs := fun k =>
      if k = { Namespace := obj.ObjectMeta.Namespace, Name := obj.ObjectMeta.Name } then some obj
      else c.webappCRs k }

/-- A label selector of `MatchingLabels`: every pair of `sel` is on the object. -/
def matchesLabels (sel : Labels) (obj : Labels) : Bool :=
  sel.all (fun kv => Labels.get? obj kv.1 == some kv.2)

/-- Run a call on the store unless the schedule fails it; the call is counted
either way. -/
def World.call {α : Type} (w : World) (op : Cluster → Except Err α × Cluster) :
    Except Err α × World :=
  match w.faults w.calls with
  | some err => (.error err, w.tick)
  | none =>
    let out := op w.cluster
    (out.1, (w.withCluster out.2).tick)

/-- The API server as a client.  Reads do not change the objects.  `CronJob` and
`WebappCR` have a `status` subresource: a create or update of the main resource
leaves the stored status alone (empty on create), and a status update takes only
the status from the request.  Server-assigned metadata (resource version,
generation, timestamps) is left out. -/
def apiServer : Client World where
  GetWebappCR key w := w.call fun c =>
    match c.webappCRs key with
    | some obj => (.ok obj, c)
    | none => (.error .NotFound, c)
  GetCronJob key w := w.call fun c =>
    match c.cronJobs key with
    | some obj => (.ok obj, c)
    | none => (.error .NotFound, c)
  Create obj w := w.call fun c =>
    match c.cronJobs (ObjectKeyFromObject obj) with
    | some _ => (.error .AlreadyExists, c)
    | none =>
      let stored := { obj with Status := {} }
      (.ok stored, c.putCronJob stored)
  Update obj w := w.call fun c =>
    match c.cronJobs (ObjectKeyFromObject obj) with
    | none => (.error .NotFound, c)
    | some old =>
      let stored := { obj with Status := old.Status }
      (.ok stored, c.putCronJob stored)
  StatusUpdateCronJob obj w := w.call fun c =>
    match c.cronJobs (ObjectKeyFromObject obj) with
    | none => (.error .NotFound, c)
    | some old =>
      let stored := { old with Status := obj.Status }
      (.ok stored, c.putCronJob stored)
  StatusUpdateWebappCR obj w := w.call fun c =>
    match c.webappCRs { Namespace := obj.ObjectMeta.Namespace, Name := obj.ObjectMeta.Name } with
    | none => (.error .NotFound, c)
    | some old =>
      let stored := { old with Status := obj.Status }
      (.ok stored, c.putWebappCR stored)
  ListJobs ns labels w := w.call fun c =>
    (.ok (c.jobs.filter fun job =>
        job.ObjectMeta.Namespace == ns && matchesLabels labels job.ObjectMeta.Labels), c)

/-- The reconciler against the in-memory API server. -/
def reconciler (scheme : Scheme) : WebappCRReconciler World :=
  { Client := apiServer, Scheme := scheme }

/-- The scheme of the operator: `WebappCR` registered once. -/
def operatorScheme : Scheme :=
  { webappCRKinds := [{ APIVersion := "crwebapp.my.domain/v1", Kind := "WebappCR" }] }

/-! ## What a pass without failures stores -/

/-- The jobs the list call of a pass for `cr` selects. -/
def childJobsOf (c : Cluster) (req : Request) (cr : WebappCR) : List Job :=
  c.jobs.filter fun job =>
    job.ObjectMeta.Namespace == req.NamespacedName.Namespace &&
      matchesLabels [("owner-cronjob", cr.ObjectMeta.Name)] job.ObjectMeta.Labels

/-- The `CronJob` under the request key after a pass without failures: the
desired one without status when there was none, the old one with the clock
reading as last-schedule time otherwise. -/
def storedCronJob (c : Cluster) (req : Request) (cj : CronJob) (now : Time) : CronJob :=
  match c.cronJobs req.NamespacedName with
  | none => { cj with Status := {} }
  | some old => { old with Status := { LastScheduleTime := some now } }

/-- The custom resource under the request key after a pass without failures. -/
def storedWebappCR (c : Cluster) (req : Request) (cr : WebappCR) (cj : CronJob) (now : Time) :
    WebappCR :=
  { cr with
    Status :=
      { LastExecutionTime :=
          match (storedCronJob c req cj now).Status.LastScheduleTime with
          | some t => some t
          | none => cr.Status.LastExecutionTime,
        ExecutionStatus := executionStatus (childJobsOf c req cr) } }

/-- The world a pass against the API server leaves. -/
def afterPass (scheme : Scheme) (now : Time) (req : Request) (w : World) : World :=
  (Reconcile (reconciler scheme) now req w).2

/-- A `CronJob` without its status, that is, without its last-schedule time. -/
def CronJob.withoutStatus (cj : CronJob) : CronJob :=
  { cj with Status := {} }

/-- A custom resource without its last execution time. -/
def WebappCR.withoutLastExecutionTime (cr : WebappCR) : WebappCR :=
  { cr with Status.LastExecutionTime := none }

/-! ## Scenarios -/

/-- The request for the custom resource `web` of namespace `default`. -/
def exampleRequest : Request :=
  { NamespacedName := { Namespace := "default", Name := "web" } }

/-- The custom resource `web` with URI `http://x` and the given backoff limit. -/
def exampleWebappCR (backoffLimit : Int) : WebappCR :=
  { ObjectMeta := { Name := "web", Namespace := "default", UID := "uid-1" },
    Spec := { URI := "http://x", BackoffLimit := backoffLimit } }

/-- A stored `CronJob` for `web` with backoff limit 3 that has not fired yet. -/
def exampleCronJob : CronJob :=
  { desiredCronJob (exampleWebappCR 3) 0 with Status := {} }

/-- Two child jobs of `web`: one with `Complete=True`, one without a terminal
condition. -/
def exampleJobs : List Job :=
  [{ ObjectMeta := { Name := "web-1", Namespace := "default",
                     Labels := [("owner-cronjob", "web")] },
     Status := { Conditions := [{ Type_ := "Complete", Status := "True" }] } },
   { ObjectMeta := { Name := "web-2", Namespace := "default",
                     Labels := [("owner-cronjob", "web")] },
     Status := { Conditions := [] } }]

/-- A store with at most one custom resource and one `CronJob`, both under the
key of `exampleRequest`. -/
def exampleCluster (cr : Option WebappCR) (cj : Option CronJob) (jobs : List Job) : Cluster :=
  { webappCRs := fun k => if k = exampleRequest.NamespacedName then cr else none,
    cronJobs := fun k => if k = exampleRequest.NamespacedName then cj else none,
    jobs := jobs }

/-- No call fails. -/
def noFaults : Nat → Option Err :=
  fun _ => none

/-- Call number `n` fails with `err`, no other call does. -/
def failAt (n : Nat) (err : Err) : Nat → Option Err :=
  fun i => if i = n then some err else none

/-- The custom resource asks for backoff limit 5, the live `CronJob` has 3. -/
def driftedWorld : World :=
  { cluster := exampleCluster (some (exampleWebappCR 5)) (some exampleCronJob) [],
    faults := noFaults, calls := 0 }

/-- The custom resource asks for backoff limit 3 and there is no `CronJob`. -/
def freshWorld : World :=
  { cluster := exampleCluster (some (exampleWebappCR 3)) none [],
    faults := noFaults, calls := 0 }

/-- No custom resource under the key. -/
def deletedWorld : World :=
  { cluster := exampleCluster none (some exampleCronJob) exampleJobs,
    faults := noFaults, calls := 0 }

/-- The custom resource, its `CronJob` and the two child jobs. -/
def runningWorld : World :=
  { cluster := exampleCluster (some (exampleWebappCR 3)) (some exampleCronJob) exampleJobs,
    faults := noFaults, calls := 0 }

/-- As `runningWorld`, with the sixth call of the pass, the first status write of
the custom resource, failing once. -/
def flakyStatusWorld : World :=
  { runningWorld with faults := failAt 5 (.Other "connection reset by peer") }

/-- As `runningWorld`, with the fifth call of the pass, the list call, failing. -/
def flakyListWorld : World :=
  { runningWorld with faults := failAt 4 (.Other "connection reset by peer") }

/-! ## The calls of a pass -/

variable {σ : Type}

/-- The calls of a pass are the log of its run over the logging client. -/
theorem callsOf_eq (r : WebappCRReconciler σ) (now : Time) (req : Request) (w : σ) :
    callsOf r now req w = (Reconcile r.traced now req (w, [])).2.2 := rfl

/-- Lines 195-209 over the logging client: the two status writes, in order. -/
theorem persist_traced (r : WebappCRReconciler σ) (webappCR : WebappCR) (active : List Job)
    (w : σ) (log : List Call) :
    Reconcile.persist r.traced webappCR active (w, log) =
      (let cr1 := withExecutionStatus webappCR active
       let o1 := r.Client.StatusUpdateWebappCR cr1 w
       let cr2 := match o1.1 with
         | .ok updated => updated
         | .error _ => cr1
       let o2 := r.Client.StatusUpdateWebappCR cr2 o1.2
       (({}, match o2.1 with
             | .error err => some err
             | .ok _ => none),
        (o2.2, log ++ [.StatusUpdateWebappCR cr1 o1.1, .StatusUpdateWebappCR cr2 o2.1]))) := by
  unfold Reconcile.persist withExecutionStatus
  simp only [WebappCRReconciler.traced, traced]
  by_cases h : active.length > 0
  · simp only [h, if_true]
    rcases h1 : r.Client.StatusUpdateWebappCR _ w with ⟨res1, w1⟩
    cases res1 <;> simp only [h1] <;>
    · rcases h2 : r.Client.StatusUpdateWebappCR _ w1 with ⟨res2, w2⟩
      cases res2 <;> simp [h2]
  · simp only [h, if_false]
    rcases h1 : r.Client.StatusUpdateWebappCR _ w with ⟨res1, w1⟩
    cases res1 <;> simp only [h1] <;>
    · rcases h2 : r.Client.StatusUpdateWebappCR _ w1 with ⟨res2, w2⟩
      cases res2 <;> simp [h2]

/-- Lines 150-209 over the logging client, call by call. -/
theorem observe_traced (r : WebappCRReconciler σ) (req : Request) (webappCR : WebappCR)
    (labels : Labels) (cronJob : CronJob) (w : σ) (log : List Call) :
    Reconcile.observe r.traced req webappCR labels cronJob (w, log) =
      (let o1 := r.Client.GetCronJob (ObjectKeyFromObject cronJob) w
       let log1 := log ++ [.GetCronJob (ObjectKeyFromObject cronJob) o1.1]
       match o1.1 with
       | .error err => (({}, some err), (o1.2, log1))
       | .ok cronJobStatus =>
         let o2 := r.Client.ListJobs req.NamespacedName.Namespace labels o1.2
         let log2 := log1 ++ [.ListJobs req.NamespacedName.Namespace labels o2.1]
         match o2.1 with
         | .error err => (({}, some err), (o2.2, log2))
         | .ok childJobs =>
           Reconcile.persist r.traced (copyLastScheduleTime webappCR cronJobStatus)
             (activeJobs childJobs) (o2.2, log2)) := by
  unfold Reconcile.observe
  simp only [WebappCRReconciler.traced, traced]
  rcases h1 : r.Client.GetCronJob _ w with ⟨res1, w1⟩
  cases res1 <;> simp only [h1]
  rcases h2 : r.Client.ListJobs _ _ w1 with ⟨res2, w2⟩
  cases res2 <;> simp only [h2]

/-- The pass over the logging client, call by call. -/
theorem Reconcile_traced (r : WebappCRReconciler σ) (now : Time) (req : Request) (w : σ)
    (log : List Call) :
    Reconcile r.traced now req (w, log) =
      (let o0 := r.Client.GetWebappCR req.NamespacedName w
       let log0 := log ++ [.GetWebappCR req.NamespacedName o0.1]
       match o0.1 with
       | .error err => (({}, IgnoreNotFound err), (o0.2, log0))
       | .ok webappCR =>
         let labels := ownerLabels (buildCronJob webappCR now) webappCR
         match SetControllerReference webappCR (desiredCronJob webappCR now) r.Scheme with
         | .error err => (({}, some err), (o0.2, log0))
         | .ok cronJob =>
           let o1 := r.Client.GetCronJob (ObjectKeyFromObject cronJob) o0.2
           let log1 := log0 ++ [.GetCronJob (ObjectKeyFromObject cronJob) o1.1]
           match o1.1 with
           | .error _ =>
             let o2 := r.Client.Create cronJob o1.2
             let log2 := log1 ++ [.Create cronJob o2.1]
             match o2.1 with
             | .error err => (({}, some err), (o2.2, log2))
             | .ok created => Reconcile.observe r.traced req webappCR labels created (o2.2, log2)
           | .ok _ =>
             let patched : CronJob :=
               { cronJob with
                 Spec.JobTemplate.Spec.BackoffLimit := some webappCR.Spec.BackoffLimit }
             let o2 := r.Client.StatusUpdateCronJob patched o1.2
             let log2 := log1 ++ [.StatusUpdateCronJob patched o2.1]
             match o2.1 with
             | .error err => (({}, some err), (o2.2, log2))
             | .ok updated =>
               Reconcile.observe r.traced req webappCR labels updated (o2.2, log2)) := by
  unfold Reconcile desiredCronJob
  simp only [WebappCRReconciler.traced, traced, ObjectKeyFromObject]
  rcases h0 : r.Client.GetWebappCR _ w with ⟨res0, w0⟩
  cases res0 <;> simp only [h0]
  rename_i webappCR
  cases hs : SetControllerReference webappCR _ r.Scheme <;> simp only [hs]
  rename_i cronJob
  rcases h1 : r.Client.GetCronJob _ w0 with ⟨res1, w1⟩
  cases res1 <;> simp only [h1]
  · rcases h2 : r.Client.Create _ w1 with ⟨res2, w2⟩
    cases res2 <;> simp only [h2]
  · rcases h2 : r.Client.StatusUpdateCronJob _ w1 with ⟨res2, w2⟩
    cases res2 <;> simp only [h2]


/-- Logging changes neither the result nor the world of lines 195-209. -/
theorem persist_erase (r : WebappCRReconciler σ) (webappCR : WebappCR) (active : List Job)
    (w : σ) (log : List Call) :
    (Reconcile.persist r.traced webappCR active (w, log)).1 =
        (Reconcile.persist r webappCR active w).1 ∧
      (Reconcile.persist r.traced webappCR active (w, log)).2.1 =
        (Reconcile.persist r webappCR active w).2 := by
  unfold Reconcile.persist
  simp only [WebappCRReconciler.traced, traced]
  by_cases h : active.length > 0
  · simp only [h, if_true]
    rcases h1 : r.Client.StatusUpdateWebappCR _ w with ⟨res1, w1⟩
    cases res1 <;> simp only [h1] <;>
    · rcases h2 : r.Client.StatusUpdateWebappCR _ w1 with ⟨res2, w2⟩
      cases res2 <;> simp [h2]
  · simp only [h, if_false]
    rcases h1 : r.Client.StatusUpdateWebappCR _ w with ⟨res1, w1⟩
    cases res1 <;> simp only [h1] <;>
    · rcases h2 : r.Client.StatusUpdateWebappCR _ w1 with ⟨res2, w2⟩
      cases res2 <;> simp [h2]

/-- Logging changes neither the result nor the world of lines 150-209. -/
theorem observe_erase (r : WebappCRReconciler σ) (req : Request) (webappCR : WebappCR)
    (labels : Labels) (cronJob : CronJob) (w : σ) (log : List Call) :
    (Reconcile.observe r.traced req webappCR labels cronJob (w, log)).1 =
        (Reconcile.observe r req webappCR labels cronJob w).1 ∧
      (Reconcile.observe r.traced req webappCR labels cronJob (w, log)).2.1 =
        (Reconcile.observe r req webappCR labels cronJob w).2 := by
  rw [observe_traced]
  unfold Reconcile.observe
  rcases h1 : r.Client.GetCronJob _ w with ⟨res1, w1⟩
  cases res1
  · simp
  · simp only
    rcases h2 : r.Client.ListJobs _ _ w1 with ⟨res2, w2⟩
    cases res2
    · simp
    · simp only
      exact persist_erase r _ _ _ _

/-- Logging changes neither the result of a pass nor the world it leaves. -/
theorem Reconcile_erase (r : WebappCRReconciler σ) (now : Time) (req : Request) (w : σ)
    (log : List Call) :
    (Reconcile r.traced now req (w, log)).1 = (Reconcile r now req w).1 ∧
      (Reconcile r.traced now req (w, log)).2.1 = (Reconcile r now req w).2 := by
  rw [Reconcile_traced]
  unfold Reconcile desiredCronJob
  simp only [ObjectKeyFromObject]
  rcases h0 : r.Client.GetWebappCR _ w with ⟨res0, w0⟩
  cases res0
  · simp
  rename_i webappCR
  simp only
  cases hs : SetControllerReference webappCR _ r.Scheme
  · simp
  rename_i cronJob
  simp only
  rcases h1 : r.Client.GetCronJob _ w0 with ⟨res1, w1⟩
  cases res1 <;> simp only
  · rcases h2 : r.Client.Create _ w1 with ⟨res2, w2⟩
    cases res2 <;> simp only
    · simp
    · exact observe_erase r _ _ _ _ _ _
  · rcases h2 : r.Client.StatusUpdateCronJob _ w1 with ⟨res2, w2⟩
    cases res2 <;> simp only
    · simp
    · exact observe_erase r _ _ _ _ _ _

/-! ## Aggregation of the child jobs -/

/-- Unfinished, in the words of the specification: no condition of the job has
type `Complete` or `Failed` together with status `True`. -/
theorem isJobFinished_false_iff (job : Job) :
    (isJobFinished job).1 = false ↔
      ∀ c ∈ job.Status.Conditions,
        ¬ ((c.Type_ = "Complete" ∨ c.Type_ = "Failed") ∧ c.Status = "True") := by
  unfold isJobFinished
  induction job.Status.Conditions with
  | nil => simp [isJobFinished.loop]
  | cons c cs ih =>
    unfold isJobFinished.loop
    simp only [JobComplete, JobFailed, ConditionTrue]
    by_cases h : (c.Type_ = "Complete" ∨ c.Type_ = "Failed") ∧ c.Status = "True"
    · simp only [h, and_self, if_true, List.mem_cons, forall_eq_or_imp]
      simp
    · rw [if_neg h, ih]
      simp only [List.mem_cons, forall_eq_or_imp]
      exact ⟨fun hh => ⟨h, hh⟩, fun hh => hh.2⟩

/-- The active jobs are the unfinished jobs of the list. -/
theorem mem_activeJobs (items : List Job) (job : Job) :
    job ∈ activeJobs items ↔ job ∈ items ∧ (isJobFinished job).1 = false := by
  induction items with
  | nil => simp [activeJobs]
  | cons j rest ih =>
    unfold activeJobs
    by_cases h : (isJobFinished j).1 = true
    · simp only [h, Bool.not_true, Bool.false_eq_true, if_false, ih, List.mem_cons]
      constructor
      · rintro ⟨h1, h2⟩
        exact ⟨Or.inr h1, h2⟩
      · rintro ⟨h1 | h1, h2⟩
        · subst h1
          simp [h] at h2
        · exact ⟨h1, h2⟩
    · have h' : (isJobFinished j).1 = false := by simpa using h
      simp only [h', Bool.not_false, if_true, List.mem_cons, ih]
      constructor
      · rintro (h1 | ⟨h1, h2⟩)
        · subst h1
          exact ⟨Or.inl rfl, h'⟩
        · exact ⟨Or.inr h1, h2⟩
      · rintro ⟨h1 | h1, h2⟩
        · exact Or.inl h1
        · exact Or.inr ⟨h1, h2⟩

/-- There is an active job exactly when some job of the list is unfinished. -/
theorem activeJobs_length_pos_iff (items : List Job) :
    (activeJobs items).length > 0 ↔
      ∃ job ∈ items, ∀ c ∈ job.Status.Conditions,
        ¬ ((c.Type_ = "Complete" ∨ c.Type_ = "Failed") ∧ c.Status = "True") := by
  rw [gt_iff_lt, List.length_pos_iff_exists_mem]
  constructor
  · rintro ⟨job, hj⟩
    rw [mem_activeJobs] at hj
    exact ⟨job, hj.1, (isJobFinished_false_iff job).1 hj.2⟩
  · rintro ⟨job, hj, hc⟩
    exact ⟨job, (mem_activeJobs items job).2 ⟨hj, (isJobFinished_false_iff job).2 hc⟩⟩

/-- C1, aggregation correctness.  Whenever the list call of a pass returns the
jobs `items`, the next call of the pass is a status write of the custom resource,
and the execution status it carries is `"Active"` if and only if some job of
`items` has no condition of type `Complete` or `Failed` with status `True`;
otherwise it is `"Inactive"`, as it is for the empty list. -/
theorem aggregation_correct (r : WebappCRReconciler σ) (now : Time) (req : Request) (w : σ)
    (ns : String) (labels : Labels) (items : List Job)
    (h : Call.ListJobs ns labels (.ok items) ∈ callsOf r now req w) :
    ∃ pre obj res rest,
      callsOf r now req w =
        pre ++ [.ListJobs ns labels (.ok items), .StatusUpdateWebappCR obj res] ++ rest ∧
      (obj.Status.ExecutionStatus = "Active" ↔
        ∃ job ∈ items, ∀ c ∈ job.Status.Conditions,
          ¬ ((c.Type_ = "Complete" ∨ c.Type_ = "Failed") ∧ c.Status = "True")) ∧
      ((¬ ∃ job ∈ items, ∀ c ∈ job.Status.Conditions,
          ¬ ((c.Type_ = "Complete" ∨ c.Type_ = "Failed") ∧ c.Status = "True")) →
        obj.Status.ExecutionStatus = "Inactive") ∧
      (items = [] → obj.Status.ExecutionStatus = "Inactive") := by
  have status : ∀ (cr : WebappCR) (l : List Job),
      ((withExecutionStatus cr (activeJobs l)).Status.ExecutionStatus = "Active" ↔
        ∃ job ∈ l, ∀ c ∈ job.Status.Conditions,
          ¬ ((c.Type_ = "Complete" ∨ c.Type_ = "Failed") ∧ c.Status = "True")) ∧
      ((¬ ∃ job ∈ l, ∀ c ∈ job.Status.Conditions,
          ¬ ((c.Type_ = "Complete" ∨ c.Type_ = "Failed") ∧ c.Status = "True")) →
        (withExecutionStatus cr (activeJobs l)).Status.ExecutionStatus = "Inactive") ∧
      (l = [] → (withExecutionStatus cr (activeJobs l)).Status.ExecutionStatus = "Inactive") := by
    intro cr l
    rw [← activeJobs_length_pos_iff]
    unfold withExecutionStatus
    refine ⟨?_, ?_, ?_⟩
    · by_cases hl : (activeJobs l).length > 0 <;> simp [hl]
    · intro hl
      simp [hl]
    · intro hl
      subst hl
      simp [activeJobs]
  have tail : ∀ (cr : WebappCR) (lbls : Labels) (cj : CronJob) (w1 : σ) (log : List Call),
      Call.ListJobs ns labels (.ok items) ∉ log →
      Call.ListJobs ns labels (.ok items) ∈
        (Reconcile.observe r.traced req cr lbls cj (w1, log)).2.2 →
      ∃ pre obj res rest,
        (Reconcile.observe r.traced req cr lbls cj (w1, log)).2.2 =
          pre ++ [.ListJobs ns labels (.ok items), .StatusUpdateWebappCR obj res] ++ rest ∧
        (obj.Status.ExecutionStatus = "Active" ↔
          ∃ job ∈ items, ∀ c ∈ job.Status.Conditions,
            ¬ ((c.Type_ = "Complete" ∨ c.Type_ = "Failed") ∧ c.Status = "True")) ∧
        ((¬ ∃ job ∈ items, ∀ c ∈ job.Status.Conditions,
            ¬ ((c.Type_ = "Complete" ∨ c.Type_ = "Failed") ∧ c.Status = "True")) →
          obj.Status.ExecutionStatus = "Inactive") ∧
        (items = [] → obj.Status.ExecutionStatus = "Inactive") := by
    intro cr lbls cj w1 log hlog
    rw [observe_traced]
    rcases h1 : r.Client.GetCronJob (ObjectKeyFromObject cj) w1 with ⟨res1, w2⟩
    cases res1
    · simp [hlog]
    rename_i cjs
    simp only
    rcases h2 : r.Client.ListJobs req.NamespacedName.Namespace lbls w2 with ⟨res2, w3⟩
    cases res2
    · simp [hlog]
    rename_i childJobs
    simp only [persist_traced]
    intro hmem
    simp only [List.mem_append, List.mem_cons, List.mem_singleton, List.not_mem_nil, or_false,
      hlog, false_or, Call.ListJobs.injEq, Except.ok.injEq, reduceCtorEq, List.append_assoc]
      at hmem
    obtain ⟨rfl, rfl, rfl⟩ := hmem
    rcases h3 : r.Client.StatusUpdateWebappCR
      (withExecutionStatus (copyLastScheduleTime cr cjs) (activeJobs items)) w3 with ⟨res3, w4⟩
    cases res3
    · rename_i e
      simp only
      rcases h4 : r.Client.StatusUpdateWebappCR
        (withExecutionStatus (copyLastScheduleTime cr cjs) (activeJobs items)) w4
        with ⟨res4, w5⟩
      exact ⟨log ++ [.GetCronJob (ObjectKeyFromObject cj) (.ok cjs)],
        withExecutionStatus (copyLastScheduleTime cr cjs) (activeJobs items), .error e,
        [.StatusUpdateWebappCR
          (withExecutionStatus (copyLastScheduleTime cr cjs) (activeJobs items)) res4],
        by simp, status _ _⟩
    · rename_i updated
      simp only
      rcases h4 : r.Client.StatusUpdateWebappCR updated w4 with ⟨res4, w5⟩
      exact ⟨log ++ [.GetCronJob (ObjectKeyFromObject cj) (.ok cjs)],
        withExecutionStatus (copyLastScheduleTime cr cjs) (activeJobs items), .ok updated,
        [.StatusUpdateWebappCR updated res4], by simp, status _ _⟩
  revert h
  rw [callsOf_eq, Reconcile_traced]
  rcases h0 : r.Client.GetWebappCR req.NamespacedName w with ⟨res0, w0⟩
  cases res0
  · simp
  rename_i webappCR
  simp only
  cases hs : SetControllerReference webappCR (desiredCronJob webappCR now) r.Scheme
  · simp
  rename_i cronJob
  simp only
  rcases h1 : r.Client.GetCronJob (ObjectKeyFromObject cronJob) w0 with ⟨res1, w1⟩
  cases res1
  · simp only
    rcases h2 : r.Client.Create cronJob w1 with ⟨res2, w2⟩
    cases res2
    · simp
    · simp only
      exact tail _ _ _ _ _ (by simp)
  · simp only
    rcases h2 : r.Client.StatusUpdateCronJob _ w1 with ⟨res2, w2⟩
    cases res2
    · simp
    · simp only
      exact tail _ _ _ _ _ (by simp)

/-- C1 at scenario C: two jobs, one with `Complete=True` and one without a
terminal condition, give `"Active"`. -/
theorem aggregation_correct_witness :
    Call.ListJobs "default" [("owner-cronjob", "web")] (.ok exampleJobs) ∈
        callsOf (reconciler operatorScheme) 100 exampleRequest runningWorld ∧
      ∃ pre obj res rest,
        callsOf (reconciler operatorScheme) 100 exampleRequest runningWorld =
          pre ++ [.ListJobs "default" [("owner-cronjob", "web")] (.ok exampleJobs),
            .StatusUpdateWebappCR obj res] ++ rest ∧
        obj.Status.ExecutionStatus = "Active" := by
  have hmem : Call.ListJobs "default" [("owner-cronjob", "web")] (.ok exampleJobs) ∈
      callsOf (reconciler operatorScheme) 100 exampleRequest runningWorld := by decide
  obtain ⟨pre, obj, res, rest, hcalls, hiff, -, -⟩ :=
    aggregation_correct (reconciler operatorScheme) 100 exampleRequest runningWorld
      "default" [("owner-cronjob", "web")] exampleJobs hmem
  refine ⟨hmem, pre, obj, res, rest, hcalls, hiff.2 ?_⟩
  exact ⟨{ ObjectMeta := { Name := "web-2", Namespace := "default",
                           Labels := [("owner-cronjob", "web")] },
           Status := { Conditions := [] } }, by decide, by simp⟩

/-! ## The create-or-update branch -/

/-- The calls of lines 150-209 are appended to the log. -/
theorem observe_log (r : WebappCRReconciler σ) (req : Request) (webappCR : WebappCR)
    (labels : Labels) (cronJob : CronJob) (w : σ) (log : List Call) :
    (Reconcile.observe r.traced req webappCR labels cronJob (w, log)).2.2 =
      log ++ (Reconcile.observe r.traced req webappCR labels cronJob (w, [])).2.2 := by
  rw [observe_traced, observe_traced]
  rcases h1 : r.Client.GetCronJob (ObjectKeyFromObject cronJob) w with ⟨res1, w1⟩
  cases res1
  · simp
  simp only
  rcases h2 : r.Client.ListJobs req.NamespacedName.Namespace labels w1 with ⟨res2, w2⟩
  cases res2
  · simp
  simp [persist_traced]

/-- The calls of lines 150-209 are reads and status writes of the custom
resource. -/
theorem observe_calls (r : WebappCRReconciler σ) (req : Request) (webappCR : WebappCR)
    (labels : Labels) (cronJob : CronJob) (w : σ) :
    ∀ c ∈ (Reconcile.observe r.traced req webappCR labels cronJob (w, [])).2.2,
      c.isCreate = false ∧ c.isUpdate = false ∧ c.isCronJobStatusUpdate = false := by
  rw [observe_traced]
  rcases h1 : r.Client.GetCronJob (ObjectKeyFromObject cronJob) w with ⟨res1, w1⟩
  cases res1
  · simp [Call.isCreate, Call.isUpdate, Call.isCronJobStatusUpdate]
  simp only
  rcases h2 : r.Client.ListJobs req.NamespacedName.Namespace labels w1 with ⟨res2, w2⟩
  cases res2
  · simp [Call.isCreate, Call.isUpdate, Call.isCronJobStatusUpdate]
  simp [persist_traced, Call.isCreate, Call.isUpdate, Call.isCronJobStatusUpdate]

/-- C10, the create-versus-update decision.  In a pass that fetched the custom
resource `cr` and set the controller reference on the desired `CronJob` (giving
`cj`), the second call reads the live `CronJob`.  When that read returns an error,
of any kind, the third call is a create of `cj` and the pass issues no status
update of a `CronJob`; when it succeeds, the third call is a status-subresource
update of `cj` and the pass issues no create.  No pass issues a spec update.  A
failure of the third call is the error of the pass, which then has issued three
calls, none of them a status write of the custom resource. -/
theorem create_or_status_update (r : WebappCRReconciler σ) (now : Time) (req : Request)
    (w : σ) (cr : WebappCR) (cj : CronJob)
    (h0 : (r.Client.GetWebappCR req.NamespacedName w).1 = .ok cr)
    (hs : SetControllerReference cr (desiredCronJob cr now) r.Scheme = .ok cj) :
    ∃ res1 res2 rest,
      (callsOf r now req w =
          .GetWebappCR req.NamespacedName (.ok cr) ::
            .GetCronJob (ObjectKeyFromObject cj) res1 ::
              (match res1 with
                | .error _ => Call.Create cj res2
                | .ok _ =>
                  Call.StatusUpdateCronJob
                    { cj with Spec.JobTemplate.Spec.BackoffLimit := some cr.Spec.BackoffLimit }
                    res2) :: rest) ∧
      (∀ c ∈ rest,
        c.isCreate = false ∧ c.isUpdate = false ∧ c.isCronJobStatusUpdate = false) ∧
      (∀ err, res2 = .error err →
        (Reconcile r now req w).1 = ({}, some err) ∧ rest = []) := by
  rw [← (Reconcile_erase r now req w []).1, callsOf_eq, Reconcile_traced]
  rcases h : r.Client.GetWebappCR req.NamespacedName w with ⟨res0, w0⟩
  rw [h] at h0
  simp only at h0
  subst h0
  simp only [hs]
  rcases h1 : r.Client.GetCronJob (ObjectKeyFromObject cj) w0 with ⟨res1, w1⟩
  cases res1
  · simp only
    rcases h2 : r.Client.Create cj w1 with ⟨res2, w2⟩
    cases res2
    · rename_i e err
      exact ⟨.error e, .error err, [], by simp, by simp, by simp⟩
    · rename_i e created
      rw [observe_log]
      exact ⟨.error e, .ok created, _, by simp; rfl, observe_calls r req cr _ created w2,
        by simp⟩
  · simp only
    rcases h2 : r.Client.StatusUpdateCronJob
      { cj with Spec.JobTemplate.Spec.BackoffLimit := some cr.Spec.BackoffLimit } w1
      with ⟨res2, w2⟩
    cases res2
    · rename_i found err
      exact ⟨.ok found, .error err, [], by simp, by simp, by simp⟩
    · rename_i found updated
      rw [observe_log]
      exact ⟨.ok found, .ok updated, _, by simp; rfl, observe_calls r req cr _ updated w2,
        by simp⟩

/-- C10 at scenario B: the `CronJob` exists, so the third call is a status update
of the desired `CronJob` and no call is a create or a spec update. -/
theorem create_or_status_update_witness :
    ∃ obj res2 rest,
      (callsOf (reconciler operatorScheme) 100 exampleRequest driftedWorld =
        .GetWebappCR exampleRequest.NamespacedName (.ok (exampleWebappCR 5)) ::
          .GetCronJob exampleRequest.NamespacedName (.ok exampleCronJob) ::
            .StatusUpdateCronJob obj res2 :: rest) ∧
      ∀ c ∈ rest,
        c.isCreate = false ∧ c.isUpdate = false ∧ c.isCronJobStatusUpdate = false := by
  have hs : ∃ cj, SetControllerReference (exampleWebappCR 5)
      (desiredCronJob (exampleWebappCR 5) 100) operatorScheme = .ok cj ∧
      ObjectKeyFromObject cj = exampleRequest.NamespacedName := ⟨_, rfl, rfl⟩
  obtain ⟨cj, hcj, hkey⟩ := hs
  obtain ⟨res1, res2, rest, hcalls, hkinds, -⟩ :=
    create_or_status_update (reconciler operatorScheme) 100 exampleRequest driftedWorld
      (exampleWebappCR 5) cj (by decide) hcj
  have h1 : (callsOf (reconciler operatorScheme) 100 exampleRequest driftedWorld)[1]? =
      some (.GetCronJob exampleRequest.NamespacedName (.ok exampleCronJob)) := by decide
  rw [hcalls] at h1
  simp only [List.getElem?_cons_succ, List.getElem?_cons_zero, Option.some.injEq,
    Call.GetCronJob.injEq] at h1
  obtain ⟨hk, hres⟩ := h1
  subst hres
  rw [hk] at hcalls
  exact ⟨_, res2, rest, hcalls, hkinds⟩

/-! ## The timestamp copy -/

/-- The calls of lines 150-209 when the re-read returns `cjs`: the list call
follows, and after a successful list the first status write carries the copied
timestamp. -/
theorem observe_timestamp (r : WebappCRReconciler σ) (req : Request) (webappCR : WebappCR)
    (labels : Labels) (cronJob : CronJob) (w : σ) (key : NamespacedName) (cjs : CronJob)
    (h : (Reconcile.observe r.traced req webappCR labels cronJob (w, [])).2.2[0]? =
      some (.GetCronJob key (.ok cjs))) :
    ∃ ns lbls res,
      (Reconcile.observe r.traced req webappCR labels cronJob (w, [])).2.2[1]? =
        some (.ListJobs ns lbls res) ∧
      ∀ items, res = .ok items → ∃ obj res5,
        (Reconcile.observe r.traced req webappCR labels cronJob (w, [])).2.2[2]? =
          some (.StatusUpdateWebappCR obj res5) ∧
        (∀ t, cjs.Status.LastScheduleTime = some t → obj.Status.LastExecutionTime = some t) ∧
        (cjs.Status.LastScheduleTime = none →
          obj.Status.LastExecutionTime = webappCR.Status.LastExecutionTime) := by
  revert h
  rw [observe_traced]
  rcases h1 : r.Client.GetCronJob (ObjectKeyFromObject cronJob) w with ⟨res1, w1⟩
  cases res1
  · simp
  rename_i found
  simp only
  rcases h2 : r.Client.ListJobs req.NamespacedName.Namespace labels w1 with ⟨res2, w2⟩
  cases res2
  · rename_i e
    intro _
    exact ⟨req.NamespacedName.Namespace, labels, .error e, by simp, by simp⟩
  rename_i childJobs
  simp only [persist_traced]
  intro h
  simp only [List.nil_append, List.cons_append, List.getElem?_cons_zero, Option.some.injEq,
    Call.GetCronJob.injEq, Except.ok.injEq] at h
  obtain ⟨_, rfl⟩ := h
  refine ⟨req.NamespacedName.Namespace, labels, .ok childJobs, by simp, ?_⟩
  intro items _
  refine ⟨withExecutionStatus (copyLastScheduleTime webappCR found) (activeJobs childJobs),
    (r.Client.StatusUpdateWebappCR
      (withExecutionStatus (copyLastScheduleTime webappCR found) (activeJobs childJobs)) w2).1,
    by simp, ?_, ?_⟩
  · intro t ht
    simp [withExecutionStatus, copyLastScheduleTime, ht]
  · intro ht
    simp [withExecutionStatus, copyLastScheduleTime, ht]

/-- C9, the timestamp copy.  In a pass whose first call fetched the custom
resource `cr` and whose fourth call, the re-read of the `CronJob`, returned `cjs`,
the next call is the listing of the child jobs (the pass goes on to aggregation),
and when the listing succeeds the next call is a status write of the custom
resource whose `lastExecutionTime` is the last-schedule time of `cjs` when that is
present, and the `lastExecutionTime` of `cr` as fetched when it is absent. -/
theorem timestamp_copy (r : WebappCRReconciler σ) (now : Time) (req : Request) (w : σ)
    (cr : WebappCR) (key : NamespacedName) (cjs : CronJob)
    (h0 : (callsOf r now req w)[0]? = some (.GetWebappCR req.NamespacedName (.ok cr)))
    (h3 : (callsOf r now req w)[3]? = some (.GetCronJob key (.ok cjs))) :
    ∃ ns labels res,
      (callsOf r now req w)[4]? = some (.ListJobs ns labels res) ∧
      ∀ items, res = .ok items → ∃ obj res5,
        (callsOf r now req w)[5]? = some (.StatusUpdateWebappCR obj res5) ∧
        (∀ t, cjs.Status.LastScheduleTime = some t → obj.Status.LastExecutionTime = some t) ∧
        (cjs.Status.LastScheduleTime = none →
          obj.Status.LastExecutionTime = cr.Status.LastExecutionTime) := by
  revert h0 h3
  rw [callsOf_eq, Reconcile_traced]
  rcases h : r.Client.GetWebappCR req.NamespacedName w with ⟨res0, w0⟩
  cases res0
  · simp
  rename_i webappCR
  simp only
  cases hs : SetControllerReference webappCR (desiredCronJob webappCR now) r.Scheme
  · simp
  rename_i cronJob
  simp only
  rcases h1 : r.Client.GetCronJob (ObjectKeyFromObject cronJob) w0 with ⟨res1, w1⟩
  cases res1
  · simp only
    rcases h2 : r.Client.Create cronJob w1 with ⟨res2, w2⟩
    cases res2
    · simp
    · rename_i created
      simp only
      rw [observe_log]
      intro h0 h3
      simp only [List.nil_append, List.cons_append, List.getElem?_cons_zero, Option.some.injEq,
        Call.GetWebappCR.injEq, Except.ok.injEq, true_and] at h0
      subst h0
      have hobs := observe_timestamp r req webappCR _ created w2 key cjs (by simpa using h3)
      simpa using hobs
  · simp only
    rcases h2 : r.Client.StatusUpdateCronJob _ w1 with ⟨res2, w2⟩
    cases res2
    · simp
    · rename_i updated
      simp only
      rw [observe_log]
      intro h0 h3
      simp only [List.nil_append, List.cons_append, List.getElem?_cons_zero, Option.some.injEq,
        Call.GetWebappCR.injEq, Except.ok.injEq, true_and] at h0
      subst h0
      have hobs := observe_timestamp r req webappCR _ updated w2 key cjs (by simpa using h3)
      simpa using hobs

/-- C9 at a pass whose re-read returns a `CronJob` with last-schedule time 100. -/
theorem timestamp_copy_witness :
    ∃ obj res5,
      (callsOf (reconciler operatorScheme) 100 exampleRequest runningWorld)[5]? =
        some (.StatusUpdateWebappCR obj res5) ∧
      obj.Status.LastExecutionTime = some 100 := by
  obtain ⟨ns, labels, res, h4, h⟩ :=
    timestamp_copy (reconciler operatorScheme) 100 exampleRequest runningWorld
      (exampleWebappCR 3) exampleRequest.NamespacedName
      { exampleCronJob with Status := { LastScheduleTime := some 100 } }
      (by decide) (by decide)
  have h4c : (callsOf (reconciler operatorScheme) 100 exampleRequest runningWorld)[4]? =
      some (.ListJobs "default" [("owner-cronjob", "web")] (.ok exampleJobs)) := by decide
  rw [h4c] at h4
  simp only [Option.some.injEq, Call.ListJobs.injEq] at h4
  obtain ⟨obj, res5, h5, ht, -⟩ := h exampleJobs h4.2.2.symm
  exact ⟨obj, res5, h5, ht 100 rfl⟩

/-! ## A failing list call -/

/-- A failed list call ends the pass with its error, before any status write of
the custom resource; this holds for every client. -/
theorem list_error_ends_pass (r : WebappCRReconciler σ) (now : Time) (req : Request) (w : σ)
    (ns : String) (labels : Labels) (err : Err)
    (h : Call.ListJobs ns labels (.error err) ∈ callsOf r now req w) :
    (Reconcile r now req w).1 = ({}, some err) ∧
      ∀ c ∈ callsOf r now req w, c.isWebappCRStatusWrite = false := by
  have tail : ∀ (cr : WebappCR) (lbls : Labels) (cj : CronJob) (w1 : σ),
      Call.ListJobs ns labels (.error err) ∈
        (Reconcile.observe r.traced req cr lbls cj (w1, [])).2.2 →
      (Reconcile.observe r.traced req cr lbls cj (w1, [])).1 = ({}, some err) ∧
        ∀ c ∈ (Reconcile.observe r.traced req cr lbls cj (w1, [])).2.2,
          c.isWebappCRStatusWrite = false := by
    intro cr lbls cj w1
    rw [observe_traced]
    rcases h1 : r.Client.GetCronJob (ObjectKeyFromObject cj) w1 with ⟨res1, w2⟩
    cases res1
    · simp
    simp only
    rcases h2 : r.Client.ListJobs req.NamespacedName.Namespace lbls w2 with ⟨res2, w3⟩
    cases res2
    · rename_i e
      intro hmem
      have he : ns = req.NamespacedName.Namespace ∧ labels = lbls ∧ err = e := by
        simpa using hmem
      obtain ⟨_, _, rfl⟩ := he
      exact ⟨rfl, by simp [Call.isWebappCRStatusWrite]⟩
    · simp [persist_traced]
  revert h
  rw [← (Reconcile_erase r now req w []).1, callsOf_eq, Reconcile_traced]
  rcases h0 : r.Client.GetWebappCR req.NamespacedName w with ⟨res0, w0⟩
  cases res0
  · simp
  rename_i webappCR
  simp only
  cases hs : SetControllerReference webappCR (desiredCronJob webappCR now) r.Scheme
  · simp
  rename_i cronJob
  simp only
  rcases h1 : r.Client.GetCronJob (ObjectKeyFromObject cronJob) w0 with ⟨res1, w1⟩
  cases res1
  · simp only
    rcases h2 : r.Client.Create cronJob w1 with ⟨res2, w2⟩
    cases res2
    · simp
    · rename_i created
      simp only
      rw [observe_log, (observe_erase r req webappCR _ created w2 _).1,
        ← (observe_erase r req webappCR _ created w2 []).1]
      intro h
      have ht := tail webappCR _ created w2 (by simpa using h)
      refine ⟨ht.1, ?_⟩
      intro c hc
      simp only [List.nil_append, List.cons_append, List.mem_cons] at hc
      rcases hc with rfl | rfl | rfl | hc
      · rfl
      · rfl
      · rfl
      · exact ht.2 c hc
  · simp only
    rcases h2 : r.Client.StatusUpdateCronJob _ w1 with ⟨res2, w2⟩
    cases res2
    · simp
    · rename_i updated
      simp only
      rw [observe_log, (observe_erase r req webappCR _ updated w2 _).1,
        ← (observe_erase r req webappCR _ updated w2 []).1]
      intro h
      have ht := tail webappCR _ updated w2 (by simpa using h)
      refine ⟨ht.1, ?_⟩
      intro c hc
      simp only [List.nil_append, List.cons_append, List.mem_cons] at hc
      rcases hc with rfl | rfl | rfl | hc
      · rfl
      · rfl
      · rfl
      · exact ht.2 c hc

/-! ## The in-memory API server -/

/-- A call whose operation is a read leaves the objects alone. -/
theorem call_read {α : Type} (w : World) (op : Cluster → Except Err α × Cluster)
    (h : ∀ c, (op c).2 = c) : (w.call op).2.cluster = w.cluster := by
  unfold World.call
  split <;> simp [World.tick, World.withCluster, h]

/-- A call leaves alone what its operation leaves alone. -/
theorem call_frame {α V : Type} (view : Cluster → V) (w : World)
    (op : Cluster → Except Err α × Cluster) (h : ∀ c, view (op c).2 = view c) :
    view (w.call op).2.cluster = view w.cluster := by
  unfold World.call
  split <;> simp [World.tick, World.withCluster, h]

/-- A call that succeeds was not failed by the schedule: it ran its operation. -/
theorem call_ok {α : Type} (w : World) (op : Cluster → Except Err α × Cluster) (a : α)
    (h : (w.call op).1 = .ok a) :
    (op w.cluster).1 = .ok a ∧ (w.call op).2.cluster = (op w.cluster).2 := by
  unfold World.call at h ⊢
  split at h
  · simp at h
  · rename_i hf
    simp only [hf]
    exact ⟨h, rfl⟩

/-- Fetching a custom resource changes no object. -/
theorem GetWebappCR_cluster (key : NamespacedName) (w : World) :
    (apiServer.GetWebappCR key w).2.cluster = w.cluster := by
  apply call_read
  intro c
  split <;> rfl

/-- Reading a `CronJob` changes no object. -/
theorem GetCronJob_cluster (key : NamespacedName) (w : World) :
    (apiServer.GetCronJob key w).2.cluster = w.cluster := by
  apply call_read
  intro c
  split <;> rfl

/-- Listing the jobs changes no object. -/
theorem ListJobs_cluster (ns : String) (labels : Labels) (w : World) :
    (apiServer.ListJobs ns labels w).2.cluster = w.cluster := by
  apply call_read
  intro c
  rfl

/-- Creating a `CronJob` changes no custom resource. -/
theorem Create_webappCRs (obj : CronJob) (w : World) :
    (apiServer.Create obj w).2.cluster.webappCRs = w.cluster.webappCRs := by
  apply call_frame (fun c => c.webappCRs)
  intro c
  simp only
  split <;> rfl

/-- A status update of a `CronJob` changes no custom resource. -/
theorem StatusUpdateCronJob_webappCRs (obj : CronJob) (w : World) :
    (apiServer.StatusUpdateCronJob obj w).2.cluster.webappCRs = w.cluster.webappCRs := by
  apply call_frame (fun c => c.webappCRs)
  intro c
  simp only
  split <;> rfl

/-- A status write of a custom resource changes no `CronJob`. -/
theorem StatusUpdateWebappCR_cronJobs (obj : WebappCR) (w : World) :
    (apiServer.StatusUpdateWebappCR obj w).2.cluster.cronJobs = w.cluster.cronJobs := by
  apply call_frame (fun c => c.cronJobs)
  intro c
  simp only
  split <;> rfl

/-- A successful fetch returns the stored custom resource. -/
theorem GetWebappCR_ok (key : NamespacedName) (w : World) (cr : WebappCR)
    (h : (apiServer.GetWebappCR key w).1 = .ok cr) : w.cluster.webappCRs key = some cr := by
  have hc := (call_ok w _ cr h).1
  split at hc
  · rename_i obj hobj
    simp only [Except.ok.injEq] at hc
    rw [hobj, hc]
  · simp at hc

/-- A successful create stores the object without its status and returns it. -/
theorem Create_ok (obj created : CronJob) (w : World)
    (h : (apiServer.Create obj w).1 = .ok created) :
    created = { obj with Status := {} } ∧
      (apiServer.Create obj w).2.cluster = w.cluster.putCronJob created := by
  have hc := call_ok w _ created h
  obtain ⟨h1, h2⟩ := hc
  split at h1
  · simp at h1
  · rename_i habs
    simp only [Except.ok.injEq] at h1
    refine ⟨h1.symm, ?_⟩
    show (World.call w _).2.cluster = _
    rw [h2]
    simp only [habs]
    rw [h1]

/-- A view of the world that reads, creates and status updates of a `CronJob`
leave alone is left alone by a pass without a status write of the custom
resource. -/
theorem pass_frame {V : Type} (r : WebappCRReconciler σ) (view : σ → V)
    (hg : ∀ k w, view (r.Client.GetWebappCR k w).2 = view w)
    (hc : ∀ k w, view (r.Client.GetCronJob k w).2 = view w)
    (hcr : ∀ o w, view (r.Client.Create o w).2 = view w)
    (hsu : ∀ o w, view (r.Client.StatusUpdateCronJob o w).2 = view w)
    (hl : ∀ ns l w, view (r.Client.ListJobs ns l w).2 = view w)
    (now : Time) (req : Request) (w : σ)
    (hno : ∀ c ∈ callsOf r now req w, c.isWebappCRStatusWrite = false) :
    view (Reconcile r now req w).2 = view w := by
  have tail : ∀ (cr : WebappCR) (lbls : Labels) (cj : CronJob) (w1 : σ) (log : List Call),
      (∀ c ∈ (Reconcile.observe r.traced req cr lbls cj (w1, log)).2.2,
        c.isWebappCRStatusWrite = false) →
      view (Reconcile.observe r.traced req cr lbls cj (w1, log)).2.1 = view w1 := by
    intro cr lbls cj w1 log
    rw [observe_traced]
    rcases h1 : r.Client.GetCronJob (ObjectKeyFromObject cj) w1 with ⟨res1, w2⟩
    have e1 := hc (ObjectKeyFromObject cj) w1
    rw [h1] at e1
    cases res1
    · intro _
      exact e1
    rename_i found
    simp only
    rcases h2 : r.Client.ListJobs req.NamespacedName.Namespace lbls w2 with ⟨res2, w3⟩
    have e2 := hl req.NamespacedName.Namespace lbls w2
    rw [h2] at e2
    cases res2
    · intro _
      exact e2.trans e1
    · rename_i items
      intro hno
      exfalso
      have hbad := hno
        (.StatusUpdateWebappCR (withExecutionStatus (copyLastScheduleTime cr found)
            (activeJobs items))
          (r.Client.StatusUpdateWebappCR (withExecutionStatus (copyLastScheduleTime cr found)
            (activeJobs items)) w3).1)
        (by simp [persist_traced])
      simp [Call.isWebappCRStatusWrite] at hbad
  revert hno
  rw [← (Reconcile_erase r now req w []).2, callsOf_eq, Reconcile_traced]
  rcases h0 : r.Client.GetWebappCR req.NamespacedName w with ⟨res0, w0⟩
  have e0 := hg req.NamespacedName w
  rw [h0] at e0
  cases res0
  · intro _
    exact e0
  rename_i webappCR
  simp only
  cases hs : SetControllerReference webappCR (desiredCronJob webappCR now) r.Scheme
  · intro _
    exact e0
  rename_i cronJob
  simp only
  rcases h1 : r.Client.GetCronJob (ObjectKeyFromObject cronJob) w0 with ⟨res1, w1⟩
  have e1 := hc (ObjectKeyFromObject cronJob) w0
  rw [h1] at e1
  cases res1
  · simp only
    rcases h2 : r.Client.Create cronJob w1 with ⟨res2, w2⟩
    have e2 := hcr cronJob w1
    rw [h2] at e2
    cases res2
    · intro _
      exact e2.trans (e1.trans e0)
    · intro hno
      exact (tail _ _ _ _ _ hno).trans (e2.trans (e1.trans e0))
  · simp only
    rcases h2 : r.Client.StatusUpdateCronJob
      { cronJob with Spec.JobTemplate.Spec.BackoffLimit := some webappCR.Spec.BackoffLimit } w1
      with ⟨res2, w2⟩
    have e2 := hsu { cronJob with
      Spec.JobTemplate.Spec.BackoffLimit := some webappCR.Spec.BackoffLimit } w1
    rw [h2] at e2
    cases res2
    · intro _
      exact e2.trans (e1.trans e0)
    · intro hno
      exact (tail _ _ _ _ _ hno).trans (e2.trans (e1.trans e0))

/-- C7, list-error atomicity.  In a pass against the API server in which the
listing of the child jobs fails with `err`, `Reconcile` returns `err`, issues no
status write of the custom resource, and leaves every stored custom resource,
its status included, as it was before the pass. -/
theorem list_error_atomic (scheme : Scheme) (now : Time) (req : Request) (w : World)
    (ns : String) (labels : Labels) (err : Err)
    (h : Call.ListJobs ns labels (.error err) ∈ callsOf (reconciler scheme) now req w) :
    (Reconcile (reconciler scheme) now req w).1 = ({}, some err) ∧
      (∀ c ∈ callsOf (reconciler scheme) now req w, c.isWebappCRStatusWrite = false) ∧
      (afterPass scheme now req w).cluster.webappCRs = w.cluster.webappCRs := by
  obtain ⟨h1, h2⟩ := list_error_ends_pass (reconciler scheme) now req w ns labels err h
  refine ⟨h1, h2, ?_⟩
  exact pass_frame (reconciler scheme) (fun w => w.cluster.webappCRs)
    (fun k w => by simp only [reconciler]; rw [GetWebappCR_cluster])
    (fun k w => by simp only [reconciler]; rw [GetCronJob_cluster])
    (fun o w => Create_webappCRs o w)
    (fun o w => StatusUpdateCronJob_webappCRs o w)
    (fun ns l w => by simp only [reconciler]; rw [ListJobs_cluster])
    now req w h2

/-- C7 at a pass whose list call fails. -/
theorem list_error_atomic_witness :
    (Reconcile (reconciler operatorScheme) 100 exampleRequest flakyListWorld).1 =
        ({}, some (.Other "connection reset by peer")) ∧
      (∀ c ∈ callsOf (reconciler operatorScheme) 100 exampleRequest flakyListWorld,
        c.isWebappCRStatusWrite = false) ∧
      (afterPass operatorScheme 100 exampleRequest flakyListWorld).cluster.webappCRs =
        flakyListWorld.cluster.webappCRs :=
  list_error_atomic operatorScheme 100 exampleRequest flakyListWorld "default"
    [("owner-cronjob", "web")] (.Other "connection reset by peer") (by decide)

/-! ## The deletion short-circuit -/

/-- C4, the deletion short-circuit.  When the fetch of the custom resource
reports not-found, `Reconcile` returns the empty result and no error, the fetch
is the only call it issues (no create, update or status update), and the objects
of the store are unchanged. -/
theorem deletion_short_circuit (scheme : Scheme) (now : Time) (req : Request) (w : World)
    (err : Err)
    (h : (apiServer.GetWebappCR req.NamespacedName w).1 = .error err)
    (hnf : IsNotFound err = true) :
    (Reconcile (reconciler scheme) now req w).1 = ({}, none) ∧
      callsOf (reconciler scheme) now req w = [.GetWebappCR req.NamespacedName (.error err)] ∧
      (afterPass scheme now req w).cluster = w.cluster := by
  have hcalls : callsOf (reconciler scheme) now req w =
      [.GetWebappCR req.NamespacedName (.error err)] := by
    rw [callsOf_eq, Reconcile_traced]
    simp only [reconciler]
    simp [h]
  refine ⟨?_, hcalls, ?_⟩
  · rw [← (Reconcile_erase (reconciler scheme) now req w []).1, Reconcile_traced]
    simp only [reconciler]
    simp [h, IgnoreNotFound, hnf]
  · unfold afterPass
    rw [← (Reconcile_erase (reconciler scheme) now req w []).2, Reconcile_traced]
    simp only [reconciler]
    simp only [h]
    exact GetWebappCR_cluster req.NamespacedName w

/-- C4 at a key whose custom resource is gone. -/
theorem deletion_short_circuit_witness :
    (Reconcile (reconciler operatorScheme) 100 exampleRequest deletedWorld).1 = ({}, none) ∧
      callsOf (reconciler operatorScheme) 100 exampleRequest deletedWorld =
        [.GetWebappCR exampleRequest.NamespacedName (.error .NotFound)] ∧
      (afterPass operatorScheme 100 exampleRequest deletedWorld).cluster =
        deletedWorld.cluster :=
  deletion_short_circuit operatorScheme 100 exampleRequest deletedWorld .NotFound
    (by decide) (by decide)

/-! ## Creation and convergence of the backoff limit -/

/-- Setting the controller reference changes the owner references only. -/
theorem SetControllerReference_ok (owner : WebappCR) (controlled cj : CronJob) (scheme : Scheme)
    (h : SetControllerReference owner controlled scheme = .ok cj) :
    cj.Spec = controlled.Spec ∧ cj.Status = controlled.Status ∧
      cj.ObjectMeta.Name = controlled.ObjectMeta.Name ∧
      cj.ObjectMeta.Namespace = controlled.ObjectMeta.Namespace ∧
      cj.ObjectMeta.Labels = controlled.ObjectMeta.Labels := by
  unfold SetControllerReference at h
  split at h
  · simp at h
  split at h
  · simp at h
  simp only at h
  split at h
  · split at h
    · simp only [Except.ok.injEq] at h
      subst h
      simp
    · simp at h
  · simp only [Except.ok.injEq] at h
    subst h
    simp

/-- A view of the world that reads and status writes of the custom resource
leave alone is left alone by lines 150-209. -/
theorem observe_frame {V : Type} (r : WebappCRReconciler σ) (view : σ → V)
    (hc : ∀ k w, view (r.Client.GetCronJob k w).2 = view w)
    (hl : ∀ ns l w, view (r.Client.ListJobs ns l w).2 = view w)
    (hw : ∀ o w, view (r.Client.StatusUpdateWebappCR o w).2 = view w)
    (req : Request) (webappCR : WebappCR) (labels : Labels) (cronJob : CronJob) (w : σ) :
    view (Reconcile.observe r req webappCR labels cronJob w).2 = view w := by
  rw [← (observe_erase r req webappCR labels cronJob w []).2, observe_traced]
  rcases h1 : r.Client.GetCronJob (ObjectKeyFromObject cronJob) w with ⟨res1, w1⟩
  have e1 := hc (ObjectKeyFromObject cronJob) w
  rw [h1] at e1
  cases res1
  · exact e1
  simp only
  rcases h2 : r.Client.ListJobs req.NamespacedName.Namespace labels w1 with ⟨res2, w2⟩
  have e2 := hl req.NamespacedName.Namespace labels w1
  rw [h2] at e2
  cases res2
  · exact e2.trans e1
  simp only [persist_traced]
  exact (hw _ _).trans ((hw _ _).trans (e2.trans e1))

/-- C5, creation (scenario A).  Let the custom resource `cr`, with name `n` and
namespace `ns`, be stored under the request key, and let the pass issue a create
call that succeeds (which the server grants only when no `CronJob` named `n`
exists in `ns`).  Then after the pass the store holds, under `n` in `ns`, a
`CronJob` with that name and namespace, whose job template has the backoff limit of
the spec and restart policy `OnFailure`, whose own labels and pod-template labels
map `owner-cronjob` to `n`, and whose single container runs the command line
`/bin/bash -c "sleep 500000 && echo <uri>"`, which ends with the URI. -/
theorem creation (scheme : Scheme) (now : Time) (req : Request) (w : World) (cr : WebappCR)
    (obj out : CronJob)
    (hcr : w.cluster.webappCRs req.NamespacedName = some cr)
    (hname : cr.ObjectMeta.Name = req.NamespacedName.Name)
    (hns : cr.ObjectMeta.Namespace = req.NamespacedName.Namespace)
    (hcreate : Call.Create obj (.ok out) ∈ callsOf (reconciler scheme) now req w) :
    ∃ cj, (afterPass scheme now req w).cluster.cronJobs req.NamespacedName = some cj ∧
      cj.ObjectMeta.Name = cr.ObjectMeta.Name ∧
      cj.ObjectMeta.Namespace = cr.ObjectMeta.Namespace ∧
      cj.Spec.JobTemplate.Spec.BackoffLimit = some cr.Spec.BackoffLimit ∧
      Labels.get? cj.ObjectMeta.Labels "owner-cronjob" = some cr.ObjectMeta.Name ∧
      Labels.get? cj.Spec.JobTemplate.Spec.Template.ObjectMeta.Labels "owner-cronjob" =
        some cr.ObjectMeta.Name ∧
      cj.Spec.JobTemplate.Spec.Template.Spec.RestartPolicy = "OnFailure" ∧
      ∃ c, cj.Spec.JobTemplate.Spec.Template.Spec.Containers = [c] ∧
        c.Command = ["/bin/bash", "-c", "sleep 500000 && echo " ++ cr.Spec.URI] := by
  revert hcreate
  unfold afterPass
  rw [← (Reconcile_erase (reconciler scheme) now req w []).2, callsOf_eq, Reconcile_traced]
  rcases h0 : (reconciler scheme).Client.GetWebappCR req.NamespacedName w with ⟨res0, w0⟩
  cases res0
  · simp
  rename_i webappCR
  have hget : w.cluster.webappCRs req.NamespacedName = some webappCR :=
    GetWebappCR_ok req.NamespacedName w webappCR (by
      have := congrArg Prod.fst h0
      simpa [reconciler] using this)
  rw [hcr] at hget
  simp only [Option.some.injEq] at hget
  subst hget
  simp only
  cases hs : SetControllerReference cr (desiredCronJob cr now) (reconciler scheme).Scheme
  · simp
  rename_i cronJob
  obtain ⟨hspec, -, hn, hnsp, hlab⟩ := SetControllerReference_ok _ _ _ _ hs
  simp only
  rcases h1 : (reconciler scheme).Client.GetCronJob (ObjectKeyFromObject cronJob) w0
    with ⟨res1, w1⟩
  cases res1
  · simp only
    rcases h2 : (reconciler scheme).Client.Create cronJob w1 with ⟨res2, w2⟩
    cases res2
    · simp
    · rename_i created
      simp only
      intro _
      obtain ⟨hc1, hc2⟩ := Create_ok cronJob created w1 (by
        have := congrArg Prod.fst h2
        simpa [reconciler] using this)
      have hw2 : w2.cluster = w1.cluster.putCronJob created := by
        have := congrArg Prod.snd h2
        simp only [reconciler] at this
        rw [← this]
        exact hc2
      rw [(observe_erase (reconciler scheme) req cr _ created w2 _).2]
      rw [observe_frame (reconciler scheme) (fun w => w.cluster.cronJobs)
        (fun k w => by simp only [reconciler]; rw [GetCronJob_cluster])
        (fun ns l w => by simp only [reconciler]; rw [ListJobs_cluster])
        (fun o w => StatusUpdateWebappCR_cronJobs o w)]
      refine ⟨created, ?_, ?_⟩
      · rw [hw2]
        simp only [Cluster.putCronJob]
        rw [if_pos]
        subst hc1
        simp only [ObjectKeyFromObject, hn, hnsp, desiredCronJob, buildCronJob,
          CronJob.SetLabels, hname, hns]
      · subst hc1
        simp only [hspec, hn, hnsp, hlab]
        have hcmd : "sleep 500000 && " ++ ("echo " ++ cr.Spec.URI) =
            "sleep 500000 && echo " ++ cr.Spec.URI := by
          rw [← String.append_assoc]
          rfl
        simp [desiredCronJob, buildCronJob, CronJob.SetLabels, ownerLabels, Labels.set,
          Labels.get?, RestartPolicyOnFailure, hcmd]
  · simp only
    rcases h2 : (reconciler scheme).Client.StatusUpdateCronJob
      { cronJob with Spec.JobTemplate.Spec.BackoffLimit := some cr.Spec.BackoffLimit } w1
      with ⟨res2, w2⟩
    cases res2
    · simp
    · rename_i updated
      simp only
      rw [observe_log]
      intro hmem
      exfalso
      simp only [List.nil_append, List.cons_append, List.mem_cons, reduceCtorEq, false_or]
        at hmem
      have := (observe_calls (reconciler scheme) req cr _ updated w2 _ hmem).1
      simp [Call.isCreate] at this

/-- C5 at scenario A: spec `uri: "http://x"`, `backoffLimit: 3`, no `CronJob`. -/
theorem creation_witness :
    ∃ cj, (afterPass operatorScheme 100 exampleRequest freshWorld).cluster.cronJobs
        exampleRequest.NamespacedName = some cj ∧
      cj.ObjectMeta.Name = "web" ∧
      cj.ObjectMeta.Namespace = "default" ∧
      cj.Spec.JobTemplate.Spec.BackoffLimit = some 3 ∧
      Labels.get? cj.ObjectMeta.Labels "owner-cronjob" = some "web" ∧
      Labels.get? cj.Spec.JobTemplate.Spec.Template.ObjectMeta.Labels "owner-cronjob" =
        some "web" ∧
      cj.Spec.JobTemplate.Spec.Template.Spec.RestartPolicy = "OnFailure" ∧
      ∃ c, cj.Spec.JobTemplate.Spec.Template.Spec.Containers = [c] ∧
        c.Command = ["/bin/bash", "-c", "sleep 500000 && echo " ++ "http://x"] := by
  have hcreate : ∃ obj out,
      (callsOf (reconciler operatorScheme) 100 exampleRequest freshWorld)[2]? =
        some (Call.Create obj (.ok out)) := ⟨_, _, rfl⟩
  obtain ⟨obj, out, hget⟩ := hcreate
  have hmem := List.getElem?_mem hget
  exact creation operatorScheme 100 exampleRequest freshWorld (exampleWebappCR 3) obj out
    (by decide) rfl rfl hmem

/-- C2 at the input of scenario B: the live `CronJob` has backoff limit 3 and the
spec asks for 5.  The pass returns success; it sent the desired object, with limit
5, to the status subresource, and the stored limit is still 3. -/
theorem backoff_limit_not_converged :
    (Reconcile (reconciler operatorScheme) 100 exampleRequest driftedWorld).1 = ({}, none) ∧
      ((callsOf (reconciler operatorScheme) 100 exampleRequest driftedWorld)[2]?.map
        fun c => match c with
          | .StatusUpdateCronJob obj _ => obj.Spec.JobTemplate.Spec.BackoffLimit
          | _ => none) = some (some 5) ∧
      ((afterPass operatorScheme 100 exampleRequest driftedWorld).cluster.cronJobs
        exampleRequest.NamespacedName).map
          (fun cj => cj.Spec.JobTemplate.Spec.BackoffLimit) = some (some 3) := by
  decide

/-! ## The status writes of the custom resource -/

/-- C6 at a failing input: the first status write of the custom resource fails,
the second succeeds, and the pass returns success. -/
theorem first_status_write_failure_dropped :
    (Reconcile (reconciler operatorScheme) 100 exampleRequest flakyStatusWorld).1 = ({}, none) ∧
      ((callsOf (reconciler operatorScheme) 100 exampleRequest flakyStatusWorld)[5]?.map
        fun c => (c.isWebappCRStatusWrite, c.failed)) = some (true, true) ∧
      ((callsOf (reconciler operatorScheme) 100 exampleRequest flakyStatusWorld)[6]?.map
        fun c => (c.isWebappCRStatusWrite, c.failed)) = some (true, false) := by
  decide

/-! ## The desired state -/

/-- C8 refuted: two constructions of the desired `CronJob` from the same custom
resource, at two clock readings, differ. -/
theorem desired_state_depends_on_clock :
    desiredCronJob (exampleWebappCR 3) 100 ≠ desiredCronJob (exampleWebappCR 3) 200 := by
  decide

/-- C8 as amended.  The metadata and the spec of the desired `CronJob` are a
function of the name, the namespace and the spec of the custom resource alone; its
status carries the clock reading of the construction as last-schedule time; so two
constructions from custom resources with the same name, namespace and spec are
equal when the clock reads the same. -/
theorem desired_state_deterministic (cr cr2 : WebappCR) (t t2 : Time)
    (hname : cr.ObjectMeta.Name = cr2.ObjectMeta.Name)
    (hns : cr.ObjectMeta.Namespace = cr2.ObjectMeta.Namespace)
    (hspec : cr.Spec = cr2.Spec) :
    (desiredCronJob cr t).ObjectMeta = (desiredCronJob cr2 t2).ObjectMeta ∧
      (desiredCronJob cr t).Spec = (desiredCronJob cr2 t2).Spec ∧
      (desiredCronJob cr t).Status.LastScheduleTime = some t ∧
      (t = t2 → desiredCronJob cr t = desiredCronJob cr2 t2) := by
  refine ⟨?_, ?_, rfl, ?_⟩
  · simp [desiredCronJob, buildCronJob, CronJob.SetLabels, ownerLabels, hname, hns]
  · simp [desiredCronJob, buildCronJob, CronJob.SetLabels, hname, hspec]
  · intro ht
    simp [desiredCronJob, buildCronJob, CronJob.SetLabels, ownerLabels, hname, hns, hspec, ht]

/-- The amended C8 at two custom resources that differ in UID and status only, at
the clock readings 100 and 200. -/
theorem desired_state_deterministic_witness :
    (desiredCronJob (exampleWebappCR 3) 100).ObjectMeta =
        (desiredCronJob { exampleWebappCR 3 with
            ObjectMeta.UID := "uid-2", Status.ExecutionStatus := "Active" } 200).ObjectMeta ∧
      (desiredCronJob (exampleWebappCR 3) 100).Spec =
        (desiredCronJob { exampleWebappCR 3 with
            ObjectMeta.UID := "uid-2", Status.ExecutionStatus := "Active" } 200).Spec ∧
      (desiredCronJob (exampleWebappCR 3) 100).Status.LastScheduleTime = some 100 :=
  have h := desired_state_deterministic (exampleWebappCR 3)
    { exampleWebappCR 3 with ObjectMeta.UID := "uid-2", Status.ExecutionStatus := "Active" }
    100 200 rfl rfl rfl
  ⟨h.1, h.2.1, h.2.2.1⟩

/-! ## Passes without failures -/

/-- A call under a schedule without failures runs its operation. -/
theorem call_no_fault {α : Type} (w : World) (op : Cluster → Except Err α × Cluster)
    (hf : ∀ i, w.faults i = none) :
    w.call op = ((op w.cluster).1, (w.withCluster (op w.cluster).2).tick) := by
  unfold World.call
  simp [hf]

/-- Counting a call keeps the schedule. -/
theorem tick_faults (w : World) : w.tick.faults = w.faults := rfl

/-- Counting a call keeps the objects. -/
theorem tick_cluster (w : World) : w.tick.cluster = w.cluster := rfl

/-- Replacing the objects keeps the schedule. -/
theorem withCluster_faults (w : World) (c : Cluster) : (w.withCluster c).faults = w.faults :=
  rfl

/-- Replacing the objects. -/
theorem withCluster_cluster (w : World) (c : Cluster) : (w.withCluster c).cluster = c := rfl

/-- The two status writes of lines 195-209 against the API server, when no call
fails and the custom resource is stored under its own key. -/
theorem persist_no_fault (scheme : Scheme) (webappCR old : WebappCR) (active : List Job)
    (w : World) (hf : ∀ i, w.faults i = none)
    (hmeta : webappCR.ObjectMeta = old.ObjectMeta)
    (hold : w.cluster.webappCRs
      { Namespace := old.ObjectMeta.Namespace, Name := old.ObjectMeta.Name } = some old) :
    (Reconcile.persist (reconciler scheme) webappCR active w).1 = ({}, none) ∧
      (Reconcile.persist (reconciler scheme) webappCR active w).2.faults = w.faults ∧
      (Reconcile.persist (reconciler scheme) webappCR active w).2.cluster =
        w.cluster.putWebappCR
          { old with Status := (withExecutionStatus webappCR active).Status } := by
  have first : ∀ cr1 : WebappCR, cr1.ObjectMeta = old.ObjectMeta →
      apiServer.StatusUpdateWebappCR cr1 w =
        (.ok { old with Status := cr1.Status },
          (w.withCluster (w.cluster.putWebappCR { old with Status := cr1.Status })).tick) := by
    intro cr1 h1
    simp only [apiServer, call_no_fault _ _ hf, h1, hold]
  have second : ∀ (stored : WebappCR), stored.ObjectMeta = old.ObjectMeta →
      apiServer.StatusUpdateWebappCR stored
          (w.withCluster (w.cluster.putWebappCR stored)).tick =
        (.ok stored,
          ((w.withCluster (w.cluster.putWebappCR stored)).tick.withCluster
            (w.cluster.putWebappCR stored)).tick) := by
    intro stored h1
    have hf2 : ∀ i, (w.withCluster (w.cluster.putWebappCR stored)).tick.faults i = none := hf
    simp only [apiServer, call_no_fault _ _ hf2, tick_cluster, withCluster_cluster]
    have hlook : (w.cluster.putWebappCR stored).webappCRs
        { Namespace := stored.ObjectMeta.Namespace, Name := stored.ObjectMeta.Name } =
        some stored := by
      simp [Cluster.putWebappCR]
    simp only [hlook]
    have hput : (w.cluster.putWebappCR stored).putWebappCR stored =
        w.cluster.putWebappCR stored := by
      simp only [Cluster.putWebappCR, Cluster.mk.injEq, and_true]
      funext k
      split <;> rfl
    exact congrArg (fun c => (Except.ok stored,
      ((w.withCluster (w.cluster.putWebappCR stored)).tick.withCluster c).tick)) hput
  unfold Reconcile.persist
  simp only [reconciler]
  by_cases hact : active.length > 0
  · simp only [hact, if_true]
    rw [first { webappCR with Status.ExecutionStatus := "Active" } hmeta]
    simp only
    rw [second { old with Status := { LastExecutionTime := webappCR.Status.LastExecutionTime,
                                      ExecutionStatus := "Active" } } rfl]
    simp [withExecutionStatus, hact, tick_faults, withCluster_faults, tick_cluster,
      withCluster_cluster]
  · simp only [hact, if_false]
    rw [first { webappCR with Status.ExecutionStatus := "Inactive" } hmeta]
    simp only
    rw [second { old with Status := { LastExecutionTime := webappCR.Status.LastExecutionTime,
                                      ExecutionStatus := "Inactive" } } rfl]
    simp [withExecutionStatus, hact, tick_faults, withCluster_faults, tick_cluster,
      withCluster_cluster]

/-- Lines 150-209 against the API server, when no call fails, the `CronJob` is
stored under the key of `cronJob`, and the custom resource under its own key. -/
theorem observe_no_fault (scheme : Scheme) (req : Request) (webappCR old : WebappCR)
    (labels : Labels) (cronJob stored : CronJob) (w : World) (hf : ∀ i, w.faults i = none)
    (hmeta : webappCR.ObjectMeta = old.ObjectMeta)
    (hold : w.cluster.webappCRs
      { Namespace := old.ObjectMeta.Namespace, Name := old.ObjectMeta.Name } = some old)
    (hcj : w.cluster.cronJobs (ObjectKeyFromObject cronJob) = some stored) :
    (Reconcile.observe (reconciler scheme) req webappCR labels cronJob w).1 = ({}, none) ∧
      (Reconcile.observe (reconciler scheme) req webappCR labels cronJob w).2.faults = w.faults ∧
      (Reconcile.observe (reconciler scheme) req webappCR labels cronJob w).2.cluster =
        w.cluster.putWebappCR
          { old with
            Status := (withExecutionStatus (copyLastScheduleTime webappCR stored)
              (activeJobs (w.cluster.jobs.filter fun job =>
                job.ObjectMeta.Namespace == req.NamespacedName.Namespace &&
                  matchesLabels labels job.ObjectMeta.Labels))).Status } := by
  have hread : apiServer.GetCronJob (ObjectKeyFromObject cronJob) w = (.ok stored, w.tick) := by
    simp only [apiServer, call_no_fault _ _ hf, hcj]
    rfl
  have hlist : apiServer.ListJobs req.NamespacedName.Namespace labels w.tick =
      (.ok (w.cluster.jobs.filter fun job =>
          job.ObjectMeta.Namespace == req.NamespacedName.Namespace &&
            matchesLabels labels job.ObjectMeta.Labels), w.tick.tick) := by
    have hf2 : ∀ i, w.tick.faults i = none := hf
    simp only [apiServer, call_no_fault _ _ hf2]
    rfl
  unfold Reconcile.observe
  simp only [reconciler]
  rw [hread]
  simp only
  rw [hlist]
  simp only
  have hp := persist_no_fault scheme (copyLastScheduleTime webappCR stored) old
    (activeJobs (w.cluster.jobs.filter fun job =>
      job.ObjectMeta.Namespace == req.NamespacedName.Namespace &&
        matchesLabels labels job.ObjectMeta.Labels)) w.tick.tick hf
    (by
      rw [← hmeta]
      unfold copyLastScheduleTime
      split <;> rfl)
    hold
  exact hp

/-- A pass against the API server in which no call fails, for a custom resource
stored under the request key whose controller reference can be set. -/
theorem pass_no_fault (scheme : Scheme) (now : Time) (req : Request) (w : World)
    (cr : WebappCR) (cj : CronJob)
    (hf : ∀ i, w.faults i = none)
    (hcr : w.cluster.webappCRs req.NamespacedName = some cr)
    (hname : cr.ObjectMeta.Name = req.NamespacedName.Name)
    (hns : cr.ObjectMeta.Namespace = req.NamespacedName.Namespace)
    (hs : SetControllerReference cr (desiredCronJob cr now) scheme = .ok cj) :
    (Reconcile (reconciler scheme) now req w).1 = ({}, none) ∧
      (Reconcile (reconciler scheme) now req w).2.faults = w.faults ∧
      (Reconcile (reconciler scheme) now req w).2.cluster =
        (w.cluster.putCronJob (storedCronJob w.cluster req cj now)).putWebappCR
          (storedWebappCR w.cluster req cr cj now) := by
  obtain ⟨hspec, hstat, hn, hnsp, hlab⟩ := SetControllerReference_ok _ _ _ _ hs
  have hkey : ObjectKeyFromObject cj = req.NamespacedName := by
    simp only [ObjectKeyFromObject, hn, hnsp, desiredCronJob, buildCronJob, CronJob.SetLabels,
      hname, hns]
  have hkeycr : ({ Namespace := cr.ObjectMeta.Namespace, Name := cr.ObjectMeta.Name } :
      NamespacedName) = req.NamespacedName := by
    rw [hname, hns]
  have hlabels : ownerLabels (buildCronJob cr now) cr = [("owner-cronjob", cr.ObjectMeta.Name)] :=
    rfl
  have hfetch : apiServer.GetWebappCR req.NamespacedName w = (.ok cr, w.tick) := by
    simp only [apiServer, call_no_fault _ _ hf, hcr]
    rfl
  have hf1 : ∀ i, w.tick.faults i = none := hf
  have hf2 : ∀ i, w.tick.tick.faults i = none := hf
  unfold Reconcile
  simp only [reconciler]
  rw [hfetch]
  simp only
  have hs2 : SetControllerReference cr ((buildCronJob cr now).SetLabels
      (ownerLabels (buildCronJob cr now) cr)) scheme = .ok cj := hs
  rw [hs2]
  simp only
  have hk2 : ({ Name := cj.ObjectMeta.Name, Namespace := cj.ObjectMeta.Namespace } :
      NamespacedName) = req.NamespacedName := hkey
  rw [hk2]
  cases hold : w.cluster.cronJobs req.NamespacedName with
  | none =>
    have hget : apiServer.GetCronJob req.NamespacedName w.tick =
        (.error .NotFound, w.tick.tick) := by
      simp only [apiServer, call_no_fault _ _ hf1, tick_cluster, hold]
      rfl
    have hcreate : apiServer.Create cj w.tick.tick =
        (.ok { cj with Status := {} },
          (w.tick.tick.withCluster (w.cluster.putCronJob { cj with Status := {} })).tick) := by
      simp only [apiServer, call_no_fault _ _ hf2, tick_cluster, hkey, hold]
    rw [hget]
    simp only
    rw [hcreate]
    simp only
    have ho := observe_no_fault scheme req cr cr (ownerLabels (buildCronJob cr now) cr)
      { cj with Status := {} } { cj with Status := {} }
      (w.tick.tick.withCluster (w.cluster.putCronJob { cj with Status := {} })).tick hf rfl
      (by
        rw [hkeycr]
        exact hcr)
      (by simp [Cluster.putCronJob, tick_cluster, withCluster_cluster])
    refine ⟨ho.1, ho.2.1, ?_⟩
    refine ho.2.2.trans ?_
    simp only [tick_cluster, withCluster_cluster, storedCronJob, storedWebappCR, hold, hlabels,
      Cluster.putCronJob, Cluster.putWebappCR, withExecutionStatus, copyLastScheduleTime,
      executionStatus, childJobsOf]
  | some old =>
    have hget : apiServer.GetCronJob req.NamespacedName w.tick = (.ok old, w.tick.tick) := by
      simp only [apiServer, call_no_fault _ _ hf1, tick_cluster, hold]
      rfl
    have hupd : apiServer.StatusUpdateCronJob
        { cj with Spec.JobTemplate.Spec.BackoffLimit := some cr.Spec.BackoffLimit } w.tick.tick =
        (.ok { old with Status := cj.Status },
          (w.tick.tick.withCluster (w.cluster.putCronJob { old with Status := cj.Status })).tick)
        := by
      have hk3 : ObjectKeyFromObject
          { cj with Spec.JobTemplate.Spec.BackoffLimit := some cr.Spec.BackoffLimit } =
          req.NamespacedName := hkey
      simp only [apiServer, call_no_fault _ _ hf2, tick_cluster, hk3, hold]
    rw [hget]
    simp only
    rw [hupd]
    simp only
    have ho := observe_no_fault scheme req cr cr (ownerLabels (buildCronJob cr now) cr)
      { old with Status := cj.Status } { old with Status := cj.Status }
      (w.tick.tick.withCluster (w.cluster.putCronJob { old with Status := cj.Status })).tick hf rfl
      (by
        rw [hkeycr]
        exact hcr)
      (by simp [Cluster.putCronJob, tick_cluster, withCluster_cluster])
    refine ⟨ho.1, ho.2.1, ?_⟩
    refine ho.2.2.trans ?_
    have hst : cj.Status = { LastScheduleTime := some now } := hstat
    simp only [tick_cluster, withCluster_cluster, storedCronJob, storedWebappCR, hold, hlabels,
      Cluster.putCronJob, Cluster.putWebappCR, withExecutionStatus, copyLastScheduleTime,
      executionStatus, childJobsOf, hst]

/-- A pass for a key without custom resource changes no object. -/
theorem pass_absent (scheme : Scheme) (now : Time) (req : Request) (w : World)
    (hf : ∀ i, w.faults i = none)
    (hcr : w.cluster.webappCRs req.NamespacedName = none) :
    (Reconcile (reconciler scheme) now req w).2.faults = w.faults ∧
      (Reconcile (reconciler scheme) now req w).2.cluster = w.cluster := by
  have hfetch : apiServer.GetWebappCR req.NamespacedName w = (.error .NotFound, w.tick) := by
    simp only [apiServer, call_no_fault _ _ hf, hcr]
    rfl
  unfold Reconcile
  simp only [reconciler]
  rw [hfetch]
  exact ⟨rfl, rfl⟩

/-- A pass whose controller reference cannot be set changes no object. -/
theorem pass_unowned (scheme : Scheme) (now : Time) (req : Request) (w : World)
    (cr : WebappCR) (err : Err)
    (hf : ∀ i, w.faults i = none)
    (hcr : w.cluster.webappCRs req.NamespacedName = some cr)
    (hs : SetControllerReference cr (desiredCronJob cr now) scheme = .error err) :
    (Reconcile (reconciler scheme) now req w).2.faults = w.faults ∧
      (Reconcile (reconciler scheme) now req w).2.cluster = w.cluster := by
  have hfetch : apiServer.GetWebappCR req.NamespacedName w = (.ok cr, w.tick) := by
    simp only [apiServer, call_no_fault _ _ hf, hcr]
    rfl
  have hs2 : SetControllerReference cr ((buildCronJob cr now).SetLabels
      (ownerLabels (buildCronJob cr now) cr)) scheme = .error err := hs
  unfold Reconcile
  simp only [reconciler]
  rw [hfetch]
  simp only
  rw [hs2]
  exact ⟨rfl, rfl⟩

/-- Whether the controller reference can be set depends on the metadata of the
owner and of the object, not on the status of either. -/
theorem SetControllerReference_status (owner owner2 : WebappCR) (controlled : CronJob)
    (status : CronJobStatus) (scheme : Scheme) (hmeta : owner.ObjectMeta = owner2.ObjectMeta) :
    SetControllerReference owner2 { controlled with Status := status } scheme =
      match SetControllerReference owner controlled scheme with
      | .ok cj => .ok { cj with Status := status }
      | .error err => .error err := by
  have hv : validateOwner owner2 { controlled with Status := status } =
      validateOwner owner controlled := by
    simp [validateOwner, hmeta]
  unfold SetControllerReference
  rw [hv]
  cases validateOwner owner controlled with
  | some e => rfl
  | none =>
    simp only
    cases GVKForObject scheme with
    | error e => rfl
    | ok gvk =>
      simp only [hmeta]
      cases List.find? (fun r => r.Controller == some true)
        controlled.ObjectMeta.OwnerReferences with
      | none => rfl
      | some existing =>
        simp only
        split <;> rfl

/-! ## Two passes in succession -/

/-- C3 refuted: two passes in succession at the clock readings 100 and 200, with
no change in between and no failing call, leave a different `CronJob` and a
different status of the custom resource after the second pass. -/
theorem second_pass_changes_timestamps :
    (afterPass operatorScheme 200 exampleRequest
        (afterPass operatorScheme 100 exampleRequest runningWorld)).cluster.cronJobs
          exampleRequest.NamespacedName ≠
      (afterPass operatorScheme 100 exampleRequest runningWorld).cluster.cronJobs
        exampleRequest.NamespacedName ∧
    ((afterPass operatorScheme 200 exampleRequest
        (afterPass operatorScheme 100 exampleRequest runningWorld)).cluster.webappCRs
          exampleRequest.NamespacedName).map (fun cr => cr.Status) ≠
      ((afterPass operatorScheme 100 exampleRequest runningWorld).cluster.webappCRs
        exampleRequest.NamespacedName).map (fun cr => cr.Status) := by
  decide

/-- Two passes in succession without failures, for a custom resource whose
controller reference can be set: what the store holds after each. -/
theorem two_passes_no_fault (scheme : Scheme) (req : Request) (w : World) (t1 t2 : Time)
    (cr : WebappCR) (cj : CronJob)
    (hf : ∀ i, w.faults i = none)
    (hcr : w.cluster.webappCRs req.NamespacedName = some cr)
    (hname : cr.ObjectMeta.Name = req.NamespacedName.Name)
    (hns : cr.ObjectMeta.Namespace = req.NamespacedName.Namespace)
    (hkeyCJ : ∀ old, w.cluster.cronJobs req.NamespacedName = some old →
      ObjectKeyFromObject old = req.NamespacedName)
    (hs : SetControllerReference cr (desiredCronJob cr t1) scheme = .ok cj) :
    ∃ cj1 cr1,
      (afterPass scheme t1 req w).cluster.cronJobs req.NamespacedName = some cj1 ∧
      (afterPass scheme t1 req w).cluster.webappCRs req.NamespacedName = some cr1 ∧
      (afterPass scheme t2 req (afterPass scheme t1 req w)).cluster.cronJobs =
        (fun k => if k = req.NamespacedName then
            some { cj1 with Status := { LastScheduleTime := some t2 } }
          else (afterPass scheme t1 req w).cluster.cronJobs k) ∧
      (afterPass scheme t2 req (afterPass scheme t1 req w)).cluster.webappCRs =
        (fun k => if k = req.NamespacedName then
            some { cr1 with Status.LastExecutionTime := some t2 }
          else (afterPass scheme t1 req w).cluster.webappCRs k) ∧
      (afterPass scheme t2 req (afterPass scheme t1 req w)).cluster.jobs =
        (afterPass scheme t1 req w).cluster.jobs := by
  obtain ⟨-, -, hn, hnsp, -⟩ := SetControllerReference_ok _ _ _ _ hs
  have hkey : ObjectKeyFromObject cj = req.NamespacedName := by
    simp only [ObjectKeyFromObject, hn, hnsp, desiredCronJob, buildCronJob, CronJob.SetLabels,
      hname, hns]
  have hkeycr : ({ Namespace := cr.ObjectMeta.Namespace, Name := cr.ObjectMeta.Name } :
      NamespacedName) = req.NamespacedName := by
    rw [hname, hns]
  obtain ⟨-, hfaults1, hcl1⟩ := pass_no_fault scheme t1 req w cr cj hf hcr hname hns hs
  have hkey1 : ObjectKeyFromObject (storedCronJob w.cluster req cj t1) = req.NamespacedName := by
    unfold storedCronJob
    cases hold : w.cluster.cronJobs req.NamespacedName with
    | none => exact hkey
    | some old => exact hkeyCJ old hold
  have hf1 : ∀ i, (afterPass scheme t1 req w).faults i = none := by
    intro i
    unfold afterPass
    rw [hfaults1]
    exact hf i
  have hcj1 : (afterPass scheme t1 req w).cluster.cronJobs req.NamespacedName =
      some (storedCronJob w.cluster req cj t1) := by
    unfold afterPass
    rw [hcl1]
    simp [Cluster.putWebappCR, Cluster.putCronJob, hkey1]
  have hcr1 : (afterPass scheme t1 req w).cluster.webappCRs req.NamespacedName =
      some (storedWebappCR w.cluster req cr cj t1) := by
    unfold afterPass
    rw [hcl1]
    simp [Cluster.putWebappCR, storedWebappCR, hkeycr]
  have hjobs1 : (afterPass scheme t1 req w).cluster.jobs = w.cluster.jobs := by
    unfold afterPass
    rw [hcl1]
    rfl
  have hs2 : SetControllerReference (storedWebappCR w.cluster req cr cj t1)
      (desiredCronJob (storedWebappCR w.cluster req cr cj t1) t2) scheme =
      .ok { cj with Status := { LastScheduleTime := some t2 } } := by
    have := SetControllerReference_status cr (storedWebappCR w.cluster req cr cj t1)
      (desiredCronJob cr t1) { LastScheduleTime := some t2 } scheme rfl
    rw [hs] at this
    exact this
  obtain ⟨-, -, hcl2⟩ := pass_no_fault scheme t2 req (afterPass scheme t1 req w)
    (storedWebappCR w.cluster req cr cj t1) { cj with Status := { LastScheduleTime := some t2 } }
    hf1 hcr1 hname hns hs2
  have hmeta1 : (storedWebappCR w.cluster req cr cj t1).ObjectMeta = cr.ObjectMeta := rfl
  have hchild : childJobsOf (afterPass scheme t1 req w).cluster req
      (storedWebappCR w.cluster req cr cj t1) = childJobsOf w.cluster req cr := by
    simp only [childJobsOf, hjobs1, hmeta1]
  have hexec : (storedWebappCR w.cluster req cr cj t1).Status.ExecutionStatus =
      executionStatus (childJobsOf w.cluster req cr) := rfl
  obtain ⟨cjS1, hS1⟩ : ∃ x, x = storedCronJob w.cluster req cj t1 := ⟨_, rfl⟩
  obtain ⟨crS1, hR1⟩ : ∃ x, x = storedWebappCR w.cluster req cr cj t1 := ⟨_, rfl⟩
  rw [← hS1] at hcj1 hkey1
  rw [← hR1] at hcr1 hcl2 hmeta1 hchild hexec
  have hst2 : storedCronJob (afterPass scheme t1 req w).cluster req
      { cj with Status := { LastScheduleTime := some t2 } } t2 =
      { cjS1 with Status := { LastScheduleTime := some t2 } } := by
    unfold storedCronJob
    rw [hcj1]
  have hsr2 : storedWebappCR (afterPass scheme t1 req w).cluster req crS1
      { cj with Status := { LastScheduleTime := some t2 } } t2 =
      { crS1 with Status.LastExecutionTime := some t2 } := by
    unfold storedWebappCR
    rw [hst2, hchild, ← hexec]
  rw [hst2, hsr2] at hcl2
  have hk1 : ({ Namespace := cjS1.ObjectMeta.Namespace, Name := cjS1.ObjectMeta.Name } :
      NamespacedName) = req.NamespacedName := hkey1
  have hk2 : ({ Namespace := crS1.ObjectMeta.Namespace, Name := crS1.ObjectMeta.Name } :
      NamespacedName) = req.NamespacedName := by
    rw [hmeta1]
    exact hkeycr
  refine ⟨cjS1, crS1, hcj1, hcr1, ?_, ?_, ?_⟩
  · show (Reconcile (reconciler scheme) t2 req (afterPass scheme t1 req w)).2.cluster.cronJobs = _
    rw [hcl2]
    simp only [Cluster.putWebappCR, Cluster.putCronJob, ObjectKeyFromObject, hk1]
  · show (Reconcile (reconciler scheme) t2 req (afterPass scheme t1 req w)).2.cluster.webappCRs = _
    rw [hcl2]
    simp only [Cluster.putWebappCR, Cluster.putCronJob, hk2]
  · show (Reconcile (reconciler scheme) t2 req (afterPass scheme t1 req w)).2.cluster.jobs = _
    rw [hcl2]
    rfl

/-- C3 as amended, idempotence up to the timestamp.  Take a store whose objects
under the request key carry that key, and run `Reconcile` twice in succession, at
the clock readings `t1` and `t2`, with no change in between and no failing call.
After the second pass every `CronJob` is the one after the first pass up to its
last-schedule time, every custom resource is the one after the first pass up to
its `lastExecutionTime` (so the `executionStatus` is identical), and the jobs are
the same.  When the custom resource exists and its controller reference can be
set, the last-schedule time and the `lastExecutionTime` after the second pass are
the clock reading `t2` of the second pass. -/
theorem idempotent_up_to_timestamp (scheme : Scheme) (req : Request) (w : World) (t1 t2 : Time)
    (hf : ∀ i, w.faults i = none)
    (hkeyCR : ∀ cr, w.cluster.webappCRs req.NamespacedName = some cr →
      cr.ObjectMeta.Name = req.NamespacedName.Name ∧
        cr.ObjectMeta.Namespace = req.NamespacedName.Namespace)
    (hkeyCJ : ∀ cj, w.cluster.cronJobs req.NamespacedName = some cj →
      ObjectKeyFromObject cj = req.NamespacedName) :
    (∀ k, ((afterPass scheme t2 req (afterPass scheme t1 req w)).cluster.cronJobs k).map
          CronJob.withoutStatus =
        ((afterPass scheme t1 req w).cluster.cronJobs k).map CronJob.withoutStatus) ∧
      (∀ k, ((afterPass scheme t2 req (afterPass scheme t1 req w)).cluster.webappCRs k).map
          WebappCR.withoutLastExecutionTime =
        ((afterPass scheme t1 req w).cluster.webappCRs k).map
          WebappCR.withoutLastExecutionTime) ∧
      (afterPass scheme t2 req (afterPass scheme t1 req w)).cluster.jobs =
        (afterPass scheme t1 req w).cluster.jobs ∧
      (∀ cr cj, w.cluster.webappCRs req.NamespacedName = some cr →
        SetControllerReference cr (desiredCronJob cr t1) scheme = .ok cj →
        ((afterPass scheme t2 req (afterPass scheme t1 req w)).cluster.cronJobs
            req.NamespacedName).map (fun c => c.Status.LastScheduleTime) = some (some t2) ∧
          ((afterPass scheme t2 req (afterPass scheme t1 req w)).cluster.webappCRs
            req.NamespacedName).map (fun c => c.Status.LastExecutionTime) = some (some t2)) := by
  cases hcr : w.cluster.webappCRs req.NamespacedName with
  | none =>
    obtain ⟨hfa, hcl⟩ := pass_absent scheme t1 req w hf hcr
    have hf1 : ∀ i, (afterPass scheme t1 req w).faults i = none := by
      intro i
      unfold afterPass
      rw [hfa]
      exact hf i
    have hcr1 : (afterPass scheme t1 req w).cluster.webappCRs req.NamespacedName = none := by
      unfold afterPass
      rw [hcl]
      exact hcr
    obtain ⟨-, hcl2⟩ := pass_absent scheme t2 req (afterPass scheme t1 req w) hf1 hcr1
    have h2 : (afterPass scheme t2 req (afterPass scheme t1 req w)).cluster =
        (afterPass scheme t1 req w).cluster := hcl2
    rw [h2]
    refine ⟨fun _ => rfl, fun _ => rfl, rfl, ?_⟩
    intro cr cj h
    simp at h
  | some cr =>
    obtain ⟨hname, hns⟩ := hkeyCR cr hcr
    cases hs : SetControllerReference cr (desiredCronJob cr t1) scheme with
    | error err =>
      obtain ⟨hfa, hcl⟩ := pass_unowned scheme t1 req w cr err hf hcr hs
      have hf1 : ∀ i, (afterPass scheme t1 req w).faults i = none := by
        intro i
        unfold afterPass
        rw [hfa]
        exact hf i
      have hcr1 : (afterPass scheme t1 req w).cluster.webappCRs req.NamespacedName = some cr := by
        unfold afterPass
        rw [hcl]
        exact hcr
      have hs2 : SetControllerReference cr (desiredCronJob cr t2) scheme = .error err := by
        have := SetControllerReference_status cr cr (desiredCronJob cr t1)
          { LastScheduleTime := some t2 } scheme rfl
        rw [hs] at this
        exact this
      obtain ⟨-, hcl2⟩ :=
        pass_unowned scheme t2 req (afterPass scheme t1 req w) cr err hf1 hcr1 hs2
      have h2 : (afterPass scheme t2 req (afterPass scheme t1 req w)).cluster =
          (afterPass scheme t1 req w).cluster := hcl2
      rw [h2]
      refine ⟨fun _ => rfl, fun _ => rfl, rfl, ?_⟩
      intro cr2 cj h hok
      simp only [Option.some.injEq] at h
      subst h
      rw [hs] at hok
      simp at hok
    | ok cj =>
      obtain ⟨cj1, cr1, hcj1, hcr1, hcjs, hcrs, hjobs⟩ :=
        two_passes_no_fault scheme req w t1 t2 cr cj hf hcr hname hns hkeyCJ hs
      refine ⟨?_, ?_, hjobs, ?_⟩
      · intro k
        rw [hcjs]
        by_cases hk : k = req.NamespacedName
        · subst hk
          simp [hcj1, CronJob.withoutStatus]
        · simp [hk]
      · intro k
        rw [hcrs]
        by_cases hk : k = req.NamespacedName
        · subst hk
          simp [hcr1, WebappCR.withoutLastExecutionTime]
        · simp [hk]
      · intro _ _ _ _
        rw [hcjs, hcrs]
        simp

/-- The amended C3 at the store of `runningWorld`, with passes at the clock
readings 100 and 200. -/
theorem idempotent_up_to_timestamp_witness :
    ((afterPass operatorScheme 200 exampleRequest
        (afterPass operatorScheme 100 exampleRequest runningWorld)).cluster.cronJobs
          exampleRequest.NamespacedName).map CronJob.withoutStatus =
      ((afterPass operatorScheme 100 exampleRequest runningWorld).cluster.cronJobs
        exampleRequest.NamespacedName).map CronJob.withoutStatus ∧
    ((afterPass operatorScheme 200 exampleRequest
        (afterPass operatorScheme 100 exampleRequest runningWorld)).cluster.webappCRs
          exampleRequest.NamespacedName).map WebappCR.withoutLastExecutionTime =
      ((afterPass operatorScheme 100 exampleRequest runningWorld).cluster.webappCRs
        exampleRequest.NamespacedName).map WebappCR.withoutLastExecutionTime ∧
    ((afterPass operatorScheme 200 exampleRequest
        (afterPass operatorScheme 100 exampleRequest runningWorld)).cluster.cronJobs
          exampleRequest.NamespacedName).map (fun c => c.Status.LastScheduleTime) =
      some (some 200) := by
  have hs : ∃ cj, SetControllerReference (exampleWebappCR 3)
      (desiredCronJob (exampleWebappCR 3) 100) operatorScheme = .ok cj := ⟨_, rfl⟩
  obtain ⟨cj, hcj⟩ := hs
  have h := idempotent_up_to_timestamp operatorScheme exampleRequest runningWorld 100 200
    (fun _ => rfl)
    (fun cr hcr => by
      have hcr2 : some (exampleWebappCR 3) = some cr := hcr
      simp only [Option.some.injEq] at hcr2
      subst hcr2
      exact ⟨rfl, rfl⟩)
    (fun cj hcj => by
      have hcj2 : some exampleCronJob = some cj := hcj
      simp only [Option.some.injEq] at hcj2
      subst hcj2
      rfl)
  exact ⟨h.1 _, h.2.1 _, (h.2.2.2 (exampleWebappCR 3) cj rfl hcj).1⟩

end WebappOperator
